import Mathlib

/-!
Verification of the `deprecat` decorator library against its specification.

The development shallowly embeds the parts of `deprecat/classic.py` and
`deprecat/sphinx.py` that the claims are about.  Python strings are embedded
as `List Char`; the handful of `re` patterns the code uses are embedded as
executable leftmost-match scanners whose per-position matchers reproduce the
backtracking behaviour of those concrete patterns; the `textwrap` helpers
used by the code (`dedent`, `indent`, `fill`) are embedded following their
documented semantics.  Fallible Python operations (dict access that can
raise KeyError, method access on None that raises AttributeError) are
embedded in `Except`.
-/

set_option maxRecDepth 16384

namespace Deprecat

/-- Python strings are embedded as lists of characters. -/
abbrev Str := List Char

/-! ## Basic string toolkit -/

/-- Membership of the character class `\s` of Python `re` for the ASCII
range (the only characters appearing in this development). -/
def isSpace (c : Char) : Bool :=
  c = ' ' || c = '\t' || c = '\n' || c = '\r' || c = '\x0b' || c = '\x0c'

/-- Length of the maximal leading run of `\s` characters. -/
def wsRunLen : Str → Nat
  | [] => 0
  | c :: rest => if isSpace c then 1 + wsRunLen rest else 0

/-- Boolean prefix test (Python `str.startswith`, also used to embed literal
regex fragments). -/
def pfx : Str → Str → Bool
  | [], _ => true
  | _ :: _, [] => false
  | p :: ps, c :: cs => p = c && pfx ps cs

/-- Whether the string contains a newline character. -/
def hasNl : Str → Bool
  | [] => false
  | c :: rest => c = '\n' || hasNl rest

/-- Index of the last newline character, if any. -/
def lastNlIdx : Str → Option Nat
  | [] => none
  | c :: rest =>
    match lastNlIdx rest with
    | some j => some (j + 1)
    | none => if c = '\n' then some 0 else none

/-- Number of dash characters in the string (Python `str.count('-')`). -/
def countDash : Str → Nat
  | [] => 0
  | c :: rest => (if c = '-' then 1 else 0) + countDash rest

/-- Remove the maximal trailing run of newlines.  This embeds
`re.sub(r"\n+$", "", docstring, flags=re.DOTALL)` from sphinx.py line 131:
the only matches of that pattern are inside the trailing newline run, and
substituting them removes the whole run. -/
def dropTrailingNl : Str → Str
  | [] => []
  | c :: rest =>
    match dropTrailingNl rest with
    | [] => if c = '\n' then [] else [c]
    | r => c :: r

/-- Remove the maximal trailing run of `\s` characters. -/
def dropTrailingWs : Str → Str
  | [] => []
  | c :: rest =>
    match dropTrailingWs rest with
    | [] => if isSpace c then [] else [c]
    | r => c :: r

/-- Python `str.strip()` (for the ASCII whitespace the code manipulates). -/
def stripPy (s : Str) : Str :=
  dropTrailingWs (s.dropWhile (fun c => isSpace c))

/-- Split at newline characters; a trailing newline yields a final empty
piece (the semantics of `str.split('\n')`). -/
def splitNl : Str → List Str
  | [] => [[]]
  | c :: rest =>
    if c = '\n' then [] :: splitNl rest
    else
      match splitNl rest with
      | [] => [[c]]
      | l :: ls => (c :: l) :: ls

/-- Join lines with newline separators (inverse of `splitNl`). -/
def joinNl : List Str → Str
  | [] => []
  | [l] => l
  | l :: ls => l ++ '\n' :: joinNl ls

/-- Python `str.splitlines()` for `\n`-separated text: like `splitNl` but a
trailing newline does not produce a final empty line, and the empty string
has no lines. -/
def splitlinesPy (s : Str) : List Str :=
  if s = [] then []
  else
    let ls := splitNl s
    if ls.getLast? = some [] then ls.dropLast else ls

/-- Emitted run for `collapse3`: runs of three or more newlines become two. -/
def emitNl (k : Nat) : Str :=
  List.replicate (if 3 ≤ k then 2 else k) '\n'

/-- Worker for `collapse3`, carrying the number of pending newlines. -/
def collapseAux : Nat → Str → Str
  | k, [] => emitNl k
  | k, c :: rest =>
    if c = '\n' then collapseAux (k + 1) rest
    else emitNl k ++ c :: collapseAux 0 rest

/-- Embeds `re.sub(r"[\n]{3,}", "\n\n", docstring)` (sphinx.py line 231):
every maximal run of three or more newlines is replaced by exactly two. -/
def collapse3 (s : Str) : Str := collapseAux 0 s

/-- Python slice `s[a:b]` where the start is a nonnegative index and the end
may be negative (counting from the end of the string). -/
def pySlice (s : Str) (a : Nat) (b : Int) : Str :=
  let n : Int := s.length
  let b2 : Nat := (if b < 0 then max (n + b) 0 else min b n).toNat
  (s.take b2).drop a

/-! ## Embedding of the `textwrap` helpers used by the code -/

/-- A character counted as indentation by `textwrap.dedent`. -/
def isIndentChar (c : Char) : Bool := c = ' ' || c = '\t'

/-- A line consisting solely of blanks and tabs (nonempty), which
`textwrap.dedent` normalises to an empty line. -/
def wsOnlyLine (l : Str) : Bool :=
  decide (l ≠ []) && l.all (fun c => isIndentChar c)

/-- Leading indentation of a line, as collected by `textwrap.dedent`. -/
def lineIndent (l : Str) : Str := l.takeWhile (fun c => isIndentChar c)

/-- Longest common prefix of two strings. -/
def lcp : Str → Str → Str
  | [], _ => []
  | _, [] => []
  | a :: as, b :: bs => if a = b then a :: lcp as bs else []

/-- One step of the margin computation of `textwrap.dedent`: keep the
current margin if it is a prefix of the new indent, switch to the new
indent if that is a prefix of the margin, and otherwise take the longest
common prefix (the three branches of the loop in `textwrap.dedent`). -/
def marginStep (m ind : Str) : Str :=
  if pfx m ind then m else if pfx ind m then ind else lcp m ind

/-- Embedding of `textwrap.dedent` for `\n`-separated text: blank-and-tab
lines are emptied, the margin is the `marginStep` fold over the indents of
the remaining nonempty lines, and the margin is stripped from every line
that starts with it. -/
def pydedent (s : Str) : Str :=
  let ls := (splitNl s).map (fun l => if wsOnlyLine l then [] else l)
  let indents := (ls.filter (fun l => decide (l ≠ []))).map lineIndent
  match indents with
  | [] => joinNl ls
  | i :: is =>
    let margin := is.foldl marginStep i
    joinNl (ls.map (fun l => if pfx margin l then l.drop margin.length else l))

/-- Embedding of `textwrap.indent(text, prefix)` with the default predicate:
the prefix is added to every line whose stripped content is nonempty. -/
def indentPy (text : Str) (pre : Str) : Str :=
  joinNl ((splitNl text).map (fun l => if stripPy l ≠ [] then pre ++ l else l))

/-- Canonicalise whitespace to blanks (the `replace_whitespace` phase of
`textwrap.fill`). -/
def toSpaces (s : Str) : Str :=
  s.map (fun c => if isSpace c then ' ' else c)

/-- Split into maximal runs of blanks / non-blanks (the chunking phase of
`textwrap.fill` on text whose whitespace has been canonicalised). -/
def chunksOf : Str → List Str
  | [] => []
  | c :: rest =>
    match chunksOf rest with
    | [] => [[c]]
    | [] :: ws => [c] :: [] :: ws
    | (d :: w) :: ws =>
      if (c = ' ') = (d = ' ') then (c :: d :: w) :: ws
      else [c] :: (d :: w) :: ws

/-- Whether a chunk is a blank run. -/
def isBlankChunk (w : Str) : Bool := w.head? = some ' '

/-- Greedy packing of chunks into lines for the `fillPy` model: blank chunks
and the following word stay on the current line while the width allows,
whitespace at a line break is dropped, and continuation lines start with
the subsequent indent. -/
def fillLines (width : Nat) (sub : Str) : Str → List Str → List Str
  | cur, [] => [cur]
  | cur, w :: ws =>
    if isBlankChunk w then
      match ws with
      | [] => [cur]
      | w2 :: ws2 =>
        if cur.length + w.length + w2.length ≤ width then
          fillLines width sub (cur ++ w ++ w2) ws2
        else cur :: fillLines width sub (sub ++ w2) ws2
    else fillLines width sub (cur ++ w) ws

/-- Model of `textwrap.fill(text, width, initial_indent, subsequent_indent)`
with the default options, adequate for tab-free ASCII text whose words fit
into the width (the only inputs this development evaluates it on). -/
def fillPy (width : Nat) (ini sub : Str) (text : Str) : Str :=
  match chunksOf (toSpaces text) with
  | [] => []
  | cs => joinNl (fillLines width sub ini cs)

/-- Python `"".join(line + "\n" for line in lines)` (sphinx.py lines 160
and 228). -/
def joinLinesNl (ls : List Str) : Str :=
  (ls.map (fun l => l ++ ['\n'])).flatten

/-! ## Embedding of `str.format` for the templates the code builds

The code builds format strings containing only plain `{key}` placeholders
and then calls `.format` with keyword arguments.  `pyFormat` substitutes
the placeholders in a left-to-right scan; substituted values are not
rescanned, exactly as in Python.  (The templates built by the code never
contain brace escapes or unknown keys.) -/

/-- Lookup of a placeholder key; an unknown key is kept verbatim (the
templates built by the code always carry all their keys). -/
def valOf : List (Str × Str) → Str → Str
  | [], k => '{' :: (k ++ ['}'])
  | (key, v) :: rest, k => if key = k then v else valOf rest k

/-- Scanner for `pyFormat`: outside a field when the accumulator is `none`,
inside a `{key}` field otherwise, accumulating the key seen so far. -/
def pyFormatAux (vals : List (Str × Str)) : Option Str → Str → Str
  | none, [] => []
  | none, c :: rest =>
    if c = '{' then pyFormatAux vals (some []) rest
    else c :: pyFormatAux vals none rest
  | some k, [] => '{' :: k
  | some k, c :: rest =>
    if c = '}' then valOf vals k ++ pyFormatAux vals none rest
    else pyFormatAux vals (some (k ++ [c])) rest

/-- Substitute `{key}` placeholders, embedding `str.format(**vals)` for the
plain templates the code builds: substituted values are not rescanned. -/
def pyFormat (vals : List (Str × Str)) (fmt : Str) : Str :=
  pyFormatAux vals none fmt

/-! ## Leftmost regex search

Each concrete pattern of the code is embedded as a per-position matcher
`Str → Option Nat` returning the length of the (uniquely determined, see
the matchers below) match at the head of the string; `findFrom` scans the
positions left to right, which is exactly the leftmost-match rule of
`re.search`. -/

/-- Leftmost scan: try the matcher at every position, returning the first
position together with the match length. -/
def findFrom (m : Str → Option Nat) : Nat → Str → Option (Nat × Nat)
  | i, [] =>
    match m [] with
    | some k => some (i, k)
    | none => none
  | i, c :: rest =>
    match m (c :: rest) with
    | some k => some (i, k)
    | none => findFrom m (i + 1) rest

/-- Embedding of `re.search`: leftmost match from position 0. -/
def reSearch (m : Str → Option Nat) (s : Str) : Option (Nat × Nat) :=
  findFrom m 0 s

/-- Matcher for a literal pattern. -/
def litAt (pat : Str) (s : Str) : Option Nat :=
  if pfx pat s then some pat.length else none

/-- Matcher for `Parameters[\s]*\n[\s]*----------` at the head of the
string.  The whitespace between the word and the dashes is a single
maximal `\s` run that must contain a newline (the split into the two
`[\s]*` groups around the mandatory `\n` is arbitrary), and since `-` is
not whitespace, greedy backtracking matches the full run followed by ten
dashes. -/
def paramsHeaderAt (s : Str) : Option Nat :=
  if pfx "Parameters".data s then
    let t := s.drop 10
    let r := wsRunLen t
    if hasNl (t.take r) then
      if pfx "----------".data (t.drop r) then some (10 + r + 10) else none
    else none
  else none

/-- Matcher for `Parameters[\s]*\n` at the head of the string: the greedy
`[\s]*` backtracks to the last newline of the maximal whitespace run, so
the match ends just after that newline. -/
def paramsNlAt (s : Str) : Option Nat :=
  if pfx "Parameters".data s then
    let t := s.drop 10
    match lastNlIdx (t.take (wsRunLen t)) with
    | some j => some (10 + j + 1)
    | none => none
  else none

/-- Matcher for `\n{indent}{arg}\s*:` at the head of the string: a newline,
the literal indent and parameter name, then (since `:` is not whitespace)
the maximal whitespace run followed by a colon. -/
def argEntryAt (indent arg : Str) (s : Str) : Option Nat :=
  match s with
  | [] => none
  | c :: rest =>
    if c = '\n' then
      if pfx (indent ++ arg) rest then
        let t := rest.drop (indent.length + arg.length)
        let w := wsRunLen t
        match t.drop w with
        | ':' :: _ => some (1 + indent.length + arg.length + w + 1)
        | _ => none
      else none
    else none

/-- Matcher for `\n{indent}\S` at the head of the string. -/
def insertPtAt (indent : Str) (s : Str) : Option Nat :=
  match s with
  | [] => none
  | c :: rest =>
    if c = '\n' then
      if pfx indent rest then
        match rest.drop indent.length with
        | c2 :: _ => if isSpace c2 then none else some (1 + indent.length + 1)
        | [] => none
      else none
    else none

/-- Position of the first `----------` in the params header slice
(`re.search("----------", params_string).start()`, sphinx.py line 175). -/
def dashesStart (ps : Str) : Option Nat :=
  (reSearch (litAt "----------".data) ps).map (fun p => p.1)

/-- End of the first `Parameters[\s]*\n` match in the params header slice
(`re.search("Parameters[\\s]*\n", params_string).end()`, line 175). -/
def paramsNlEnd (ps : Str) : Option Nat :=
  (reSearch paramsNlAt ps).map (fun p => p.1 + p.2)

/-! ## Embedding of the cross-reference stripper of
`SphinxAdapter.get_deprecated_msg` (sphinx.py line 269) -/

/-- The backtick character. -/
def btick : Char := Char.ofNat 96

/-- ASCII letter test (`[a-zA-Z]` of the cross-reference pattern). -/
def isAlpha (c : Char) : Bool :=
  ('a' ≤ c && c ≤ 'z') || ('A' ≤ c && c ≤ 'Z')

/-- Length of the maximal leading run of ASCII letters. -/
def alphaRunLen : Str → Nat
  | [] => 0
  | c :: rest => if isAlpha c then 1 + alphaRunLen rest else 0

/-- Parse `:` followed by a nonempty letter run, returning the consumed
length. -/
def colonAlpha (s : Str) : Option Nat :=
  match s with
  | ':' :: rest =>
    let a := alphaRunLen rest
    if a = 0 then none else some (1 + a)
  | _ => none

/-- Parse a backtick-delimited span, returning its length and text. -/
def tickAt (s : Str) : Option (Nat × Str) :=
  match s with
  | [] => none
  | c :: rest =>
    if c = btick then
      let body := rest.takeWhile (fun d => ¬d = btick)
      match rest.drop body.length with
      | d :: _ =>
        if d = btick then some (body.length + 2, c :: (body ++ [d])) else none
      | [] => none
    else none

/-- Matcher for the cross-reference pattern
`(?::[a-zA-Z]+)?:[a-zA-Z]+:(`...`)` at the head of the string, returning
the match length and the replacement (the backtick group).  The optional
domain part is tried first, as the greedy `?` does. -/
def crossrefAt (s : Str) : Option (Nat × Str) :=
  match colonAlpha s with
  | none => none
  | some k1 =>
    match
      (match colonAlpha (s.drop k1) with
       | some k2 =>
         match s.drop (k1 + k2) with
         | ':' :: _ =>
           match tickAt (s.drop (k1 + k2 + 1)) with
           | some (k3, rep) => some (k1 + k2 + 1 + k3, rep)
           | none => none
         | _ => none
       | none => none) with
    | some hit => some hit
    | none =>
      match s.drop k1 with
      | ':' :: _ =>
        match tickAt (s.drop (k1 + 1)) with
        | some (k3, rep) => some (k1 + 1 + k3, rep)
        | none => none
      | _ => none

/-- Fuel-driven worker for `subAll`; the fuel is initialised to the string
length, which every step stays below since a match consumes at least one
character. -/
def subAllFuel (m : Str → Option (Nat × Str)) : Nat → Str → Str
  | _, [] => []
  | 0, s => s
  | fuel + 1, c :: rest =>
    match m (c :: rest) with
    | some kr =>
      if kr.1 = 0 then c :: subAllFuel m fuel rest
      else kr.2 ++ subAllFuel m fuel ((c :: rest).drop kr.1)
    | none => c :: subAllFuel m fuel rest

/-- Embedding of `re.sub` for a matcher returning a replacement: scan left
to right, replacing each match and continuing after it. -/
def subAll (m : Str → Option (Nat × Str)) (s : Str) : Str :=
  subAllFuel m s.length s

/-- The cross-reference strip applied to each message by
`SphinxAdapter.get_deprecated_msg`. -/
def stripCrossref (s : Str) : Str := subAll crossrefAt s

/-! ## Data model -/

/-- Python exceptions that the embedded code paths can raise. -/
inductive PyErr
  | keyError
  | attributeError
deriving DecidableEq, Repr

/-- Warning categories relevant to the claims. -/
inductive WCat
  | deprecation
  | user
deriving DecidableEq, Repr

/-- The advisory (UserWarning) messages the sphinx adapter can emit at
decoration time (sphinx.py lines 164, 170 and 233); the kinds stand for
the corresponding literal message texts. -/
inductive AdvisoryKind
  | missingDocstring
  | missingParamsSection
  | missingDescription (arg : Str)
deriving DecidableEq, Repr

/-- A decoration-time warning: its category and which message it carries. -/
structure Advisory where
  category : WCat
  kind : AdvisoryKind
deriving DecidableEq, Repr

/-- The per-parameter sub-record of `deprecated_args`.  A `none` field
embeds an absent dictionary key (so `.get` returns None and `[...]` raises
KeyError). -/
structure ArgSpec where
  reason : Option Str
  version : Option Str
  remove_version : Option Str
deriving DecidableEq, Repr

/-- State of a `ClassicAdapter` (classic.py lines 66-73).  `category` is
omitted: the claims only concern the default `DeprecationWarning`, and
`deprecated_args` is a key-ordered association list embedding the Python
dict. -/
structure ClassicAdapterS where
  reason : Str
  version : Str
  remove_version : Str
  action : Option Str
  deprecated_args : Option (List (Str × ArgSpec))
deriving DecidableEq, Repr

/-- State of a `SphinxAdapter` (sphinx.py lines 98-112), which carries the
classic fields plus the directive and line length.  Its constructor merely
stores the fields: the source performs no validation. -/
structure SphinxAdapterS where
  directive : Str
  reason : Str
  version : Str
  remove_version : Str
  action : Option Str
  line_length : Nat
  deprecated_args : Option (List (Str × ArgSpec))
deriving DecidableEq, Repr

/-- The classic-adapter fields of a sphinx adapter (inheritance). -/
def classicOf (ad : SphinxAdapterS) : ClassicAdapterS :=
  ⟨ad.reason, ad.version, ad.remove_version, ad.action, ad.deprecated_args⟩

/-! ## `ClassicAdapter.get_deprecated_msg` (classic.py lines 75-148) -/

/-- Call-shape template selection (classic.py lines 95-104).  `inst` is
`none` when no binding context is present, and otherwise records whether
`inspect.isclass(instance)` holds. -/
def entityFmt (wrappedIsClass : Bool) (inst : Option Bool) : Str :=
  match inst with
  | none =>
    if wrappedIsClass then "Call to deprecated class {name}.".data
    else "Call to deprecated function (or staticmethod) {name}.".data
  | some instIsClass =>
    if instIsClass then "Call to deprecated class method {name}.".data
    else "Call to deprecated method {name}.".data

/-- The per-argument message of the argument-level path (classic.py lines
125-141). -/
def argMsg (arg : Str) (spec : ArgSpec) : Str :=
  let r := spec.reason.getD []
  let v := spec.version.getD []
  let rv := spec.remove_version.getD []
  let fmt0 := "Call to deprecated Parameter {name}.".data
  let fmt1 := fmt0 ++ (if spec.reason.isSome then " ({reason})".data else [])
  let fmt2 := fmt1 ++ (if spec.version.isSome then "\n-- Deprecated since v{version}.".data else [])
  let fmt3 := fmt2 ++
    (if spec.remove_version.isSome then "\n-- Will be removed in version {remove_version}.".data else [])
  pyFormat [("name".data, arg), ("reason".data, r), ("version".data, v),
    ("remove_version".data, rv)] fmt3

/-- Embedding of `ClassicAdapter.get_deprecated_msg` (classic.py lines
75-148).  The result is `none` exactly when the Python method returns
`None`.  In the argument-level path the source iterates the intersection
of the configured names with the keyword names (a Python set, whose
iteration order the language does not fix; this embedding iterates in the
configuration's key order), rebinding `name` to each argument (line 126)
or to `""` when the intersection is empty (line 143); line 145 then
returns `None` whenever the final `name` is the empty string — so a
configured parameter actually named `""` that is iterated last discards
every message just built.  `kwargs` is the list of keyword-argument names
supplied at the call. -/
def getDeprecatedMsg (ad : ClassicAdapterS) (wrappedIsClass : Bool) (inst : Option Bool)
    (name : Str) (kwargs : List Str) : Option (List (Str × Str)) :=
  let fmt0 := entityFmt wrappedIsClass inst
  match ad.deprecated_args with
  | none =>
    let fmt1 := fmt0 ++ (if ad.reason ≠ [] then " ({reason})".data else [])
    let fmt2 := fmt1 ++ (if ad.version ≠ [] then "\n-- Deprecated since version {version}.".data else [])
    let fmt3 := fmt2 ++
      (if ad.remove_version ≠ [] then "\n-- Will be removed in version {remove_version}.".data else [])
    some [(name, pyFormat [("name".data, name), ("reason".data, ad.reason),
      ("version".data, ad.version), ("remove_version".data, ad.remove_version)] fmt3)]
  | some dargs =>
    let args2 := dargs.filter (fun p => decide (p.1 ∈ kwargs))
    match args2.getLast? with
    | none => none
    | some last =>
      if last.1 = [] then none
      else some (args2.map (fun p => (p.1, argMsg p.1 p.2)))

/-- Embedding of `SphinxAdapter.get_deprecated_msg` (sphinx.py lines
241-271): the classic messages with the cross-reference syntax stripped
from each value. -/
def sphinxGetDeprecatedMsg (ad : SphinxAdapterS) (wrappedIsClass : Bool) (inst : Option Bool)
    (name : Str) (kwargs : List Str) : Option (List (Str × Str)) :=
  (getDeprecatedMsg (classicOf ad) wrappedIsClass inst name kwargs).map
    (List.map (fun p => (p.1, stripCrossref p.2)))

/-! ## Call-time wrappers (classic.py lines 153-239) -/

/-- Embedding of the class-construction wrapper `wrapped_cls` (classic.py
lines 171-189): it iterates `msg.keys()` without a None guard, so a `None`
message set raises AttributeError before delegating to the original
`__new__`.  The result lists the warning messages emitted by the
construction. -/
def wrappedClsMsgs (ad : ClassicAdapterS) (name : Str) (kwargs : List Str) :
    Except PyErr (List (Str × Str)) :=
  match getDeprecatedMsg ad true none name kwargs with
  | none => .error .attributeError
  | some m => .ok m

/-- Embedding of the routine wrapper `wrapper_function` (classic.py lines
220-232): messages are emitted only under the `if msg:` guard, so a `None`
message set emits nothing, and the call is then delegated unchanged.  (The
message set is never an empty mapping, so Python truthiness coincides with
the `Option` match.) -/
def wrapperFunctionMsgs (ad : ClassicAdapterS) (wrappedIsClass : Bool) (inst : Option Bool)
    (name : Str) (kwargs : List Str) : List (Str × Str) :=
  match getDeprecatedMsg ad wrappedIsClass inst name kwargs with
  | none => []
  | some m => m

/-- Call-time wrapper of a function decorated through the sphinx variant:
as `wrapper_function`, but the adapter is the sphinx one, whose
`get_deprecated_msg` strips cross-references. -/
def sphinxWrapperFunctionMsgs (ad : SphinxAdapterS) (wrappedIsClass : Bool) (inst : Option Bool)
    (name : Str) (kwargs : List Str) : List (Str × Str) :=
  match sphinxGetDeprecatedMsg ad wrappedIsClass inst name kwargs with
  | none => []
  | some m => m

/-! ## `SphinxAdapter.__call__` (sphinx.py lines 114-239) -/

/-- The removal-warning sentence appended to the reason (sphinx.py lines
139 and 214). -/
def removalWarnText (rv : Str) : Str :=
  "\n\nWarning: This deprecated feature will be removed in version ".data ++ rv

/-- Docstring normalisation at the top of `__call__` (sphinx.py lines
128-134): dedent, then either strip trailing newlines and append one blank
line, or use a bare newline when there is no docstring. -/
def normalizeDoc (doc : Str) : Str :=
  let d := pydedent doc
  if d ≠ [] then dropTrailingNl d ++ "\n\n".data else "\n".data

/-- Whether the directive suppresses the classic call-time wrapping
(sphinx.py lines 236-237). -/
def notVaVc (directive : Str) : Bool :=
  !(directive == "versionadded".data || directive == "versionchanged".data)

/-- Result of decorating through the sphinx adapter: the rewritten
docstring, the decoration-time advisories, and whether the classic
call-time wrapping was installed (`super().__call__` reached). -/
structure SphinxResult where
  doc : Str
  advisories : List Advisory
  classic : Bool
deriving DecidableEq, Repr

/-- The entity-level directive block construction and append (sphinx.py
lines 136-160). -/
def entityPath (ad : SphinxAdapterS) (doc : Str) : Str :=
  let docstring := normalizeDoc doc
  let width := if 3 < ad.line_length then ad.line_length - 3 else 65536
  let reason0 := ad.reason ++ (if ad.remove_version ≠ [] then removalWarnText ad.remove_version else [])
  let reason := stripPy (pydedent reason0)
  let fmtS := if ad.version ≠ [] then ".. {directive}:: {version}".data else ".. {directive}::".data
  let headLine := pyFormat [("directive".data, ad.directive), ("version".data, ad.version)] fmtS
  let divLines := headLine ::
    (splitlinesPy reason).flatMap
      (fun p => if p ≠ [] then splitlinesPy (fillPy width "   ".data "   ".data p) else [[]])
  docstring ++ joinLinesNl divLines

/-- The parameters section slice of the docstring (sphinx.py lines
178-187), given the header match bounds and the measured indent: if a
`\n{indent}-----` occurs after the header, the end position is its start
minus the count of every dash from there to the end of the docstring;
otherwise the section runs to the end. -/
def computeParamsSection (docstring : Str) (hs he : Nat) (indent : Str) : Str :=
  match reSearch (litAt ('\n' :: (indent ++ "-----".data))) (docstring.drop he) with
  | some hit =>
    let pse : Nat := he + hit.1
    let dcount := countDash (docstring.drop pse)
    pySlice docstring hs ((pse : Int) - (dcount : Int))
  | none => docstring.drop hs

/-- The admonition template with a version (sphinx.py line 203). -/
def admonFmtBase : Str :=
  "\n\n    .. admonition:: Deprecated\n      :class: warning\n\n      Parameter {arg} deprecated since {version}".data

/-- The removal-version suffix of the admonition template (line 205). -/
def admonFmtRemove : Str :=
  admonFmtBase ++ " and will be removed in version {remove_version}.".data

/-- Mutable state threaded through the per-argument splice loop: the
docstring being rewritten, the advisories emitted so far, and the
adapter's `reason` field (which line 214 mutates in place). -/
structure SpliceState where
  docstring : Str
  advisories : List Advisory
  selfReason : Str
deriving DecidableEq, Repr

/-- One iteration of the splice loop of `SphinxAdapter.__call__` (sphinx.py
lines 167-233), for a single configured parameter. -/
def spliceArg (rm : Str) (st : SpliceState) (arg : Str) (spec : ArgSpec) :
    Except PyErr SpliceState :=
  let docstring := st.docstring
  match reSearch paramsHeaderAt docstring with
  | none =>
    .ok ⟨docstring, st.advisories ++ [⟨.user, .missingParamsSection⟩], st.selfReason⟩
  | some hit =>
    let hs := hit.1
    let he := hit.1 + hit.2
    let ps := (docstring.drop hs).take hit.2
    match dashesStart ps, paramsNlEnd ps with
    | some d, some e =>
      let indent : Str := List.replicate (d - e) ' '
      let params_section := computeParamsSection docstring hs he indent
      match reSearch (argEntryAt indent arg) params_section with
      | none =>
        .ok ⟨docstring, st.advisories ++ [⟨.user, .missingDescription arg⟩], st.selfReason⟩
      | some dhit =>
        let description_start := dhit.1 + dhit.2
        let insert_pos :=
          match reSearch (insertPtAt indent) (params_section.drop description_start) with
          | some ihit => ihit.1
          | none => (params_section.drop description_start).length
        match spec.version with
        | none =>
          -- line 211 formats with `self.deprecated_args[arg]['version']`,
          -- whose dict access raises KeyError when the key is absent
          .error .keyError
        | some v =>
          let line :=
            match spec.remove_version with
            | some rv =>
              pyFormat [("arg".data, arg), ("version".data, v), ("remove_version".data, rv)]
                admonFmtRemove
            | none => pyFormat [("arg".data, arg), ("version".data, v)] admonFmtBase
          let selfReason := if rm ≠ [] then st.selfReason ++ removalWarnText rm else st.selfReason
          let reason := stripPy (pydedent selfReason)
          let divLines := line ::
            (splitlinesPy reason).flatMap (fun p => splitlinesPy (fillPy 65536 indent indent p))
          let a := indentPy (joinLinesNl divLines) indent
          let q := hs + description_start + insert_pos
          let doc2 := docstring.take q ++ "\n\n".data ++ a ++ "\n\n".data ++ docstring.drop q
          .ok ⟨collapse3 doc2, st.advisories, selfReason⟩
    | _, _ =>
      -- `.start()` / `.end()` on a failed search would raise AttributeError;
      -- unreachable because the header slice always matches both patterns
      .error .attributeError

/-- The splice loop over the configured parameters, in a given iteration
order (the source iterates `set(self.deprecated_args.keys())`, whose order
Python does not fix; the primary entry point uses the dict's key order). -/
def spliceLoop (rm : Str) : SpliceState → List (Str × ArgSpec) → Except PyErr SpliceState
  | st, [] => .ok st
  | st, (arg, spec) :: rest => do
    spliceLoop rm (← spliceArg rm st arg spec) rest

/-- The `deprecated_args` branch of `SphinxAdapter.__call__` (sphinx.py
lines 162-239), iterating the configured parameters in the given order. -/
def sphinxArgsPath (ad : SphinxAdapterS) (order : List (Str × ArgSpec)) (doc : Str) :
    Except PyErr SphinxResult :=
  let docstring := normalizeDoc doc
  if docstring = "\n".data then
    .ok ⟨docstring, [⟨.user, .missingDocstring⟩], notVaVc ad.directive⟩
  else do
    let st ← spliceLoop ad.remove_version ⟨docstring, [], ad.reason⟩ order
    .ok ⟨st.docstring, st.advisories, notVaVc ad.directive⟩

/-- Embedding of `SphinxAdapter.__call__` (sphinx.py lines 114-239): the
docstring rewrite, the advisories, and whether the classic call-time
wrapping is installed. -/
def sphinxCall (ad : SphinxAdapterS) (doc : Str) : Except PyErr SphinxResult :=
  match ad.deprecated_args with
  | none => .ok ⟨entityPath ad doc, [], notVaVc ad.directive⟩
  | some dargs => sphinxArgsPath ad dargs doc

/-! ## Decorator factories (sphinx.py lines 274-387) -/

/-- The adapter built by the `versionadded` factory (sphinx.py lines
297-302). -/
def versionaddedAdapter (reason version : Str) (line_length : Nat) : SphinxAdapterS :=
  ⟨"versionadded".data, reason, version, [], none, line_length, none⟩

/-- The adapter built by the `versionchanged` factory (sphinx.py lines
328-333). -/
def versionchangedAdapter (reason version : Str) (line_length : Nat) : SphinxAdapterS :=
  ⟨"versionchanged".data, reason, version, [], none, line_length, none⟩

/-- The adapter built by `deprecat.sphinx.deprecat` (sphinx.py lines
337-387).  The `directive` parameter of the factory is a named parameter,
so a caller-supplied value is captured by it and never reaches `**kwargs`;
line 379 `kwargs.pop('directive', 'deprecated')` therefore always rebinds
`directive` to `"deprecated"`, discarding the caller's value. -/
def sphinxDeprecatAdapter (reason directive version remove_version : Str)
    (line_length : Nat) (deprecated_args : Option (List (Str × ArgSpec))) : SphinxAdapterS :=
  let directive2 : Str := "deprecated".data
  ⟨directive2, reason, version, remove_version, none, line_length, deprecated_args⟩

/-- Warnings emitted when calling or instantiating an entity decorated
directly by a sphinx adapter (the `versionadded` / `versionchanged`
factories return the adapter itself as the decorator).  A class found by
`ClassicAdapter.__call__` gets its `__new__` replaced only when the
classic wrapping is reached; applying the adapter alone to a routine
installs no call-time wrapper at all. -/
def adapterDirectCallMsgs (ad : SphinxAdapterS) (isClass : Bool) (res : SphinxResult)
    (name : Str) (kwargs : List Str) : Except PyErr (List (Str × Str)) :=
  if isClass && res.classic then
    match sphinxGetDeprecatedMsg ad true none name kwargs with
    | none => .error .attributeError
    | some m => .ok m
  else .ok []

/-! ## Generic lemmas about the string toolkit -/

theorem pfx_append_left (l r : Str) : pfx l (l ++ r) = true := by
  induction l with
  | nil => rfl
  | cons c cs ih => simp [pfx, ih]

theorem pfx_mem {p s : Str} (h : pfx p s = true) {c : Char} (hc : c ∈ p) : c ∈ s := by
  induction p generalizing s with
  | nil => simp at hc
  | cons a as ih =>
    cases s with
    | nil => simp [pfx] at h
    | cons b bs =>
      simp only [pfx, Bool.and_eq_true, decide_eq_true_eq] at h
      rcases List.mem_cons.mp hc with h1 | h1
      · subst h1; simp [h.1]
      · simp [ih h.2 h1]

theorem joinNl_splitNl (s : Str) : joinNl (splitNl s) = s := by
  induction s with
  | nil => rfl
  | cons c cs ih =>
    by_cases hc : c = '\n'
    · subst hc
      simp only [splitNl, if_pos rfl]
      cases hsp : splitNl cs with
      | nil =>
        exfalso
        cases cs <;> simp [splitNl] at hsp
        rename_i c2 cs2
        revert hsp
        by_cases h2 : c2 = '\n' <;> simp [h2]
        cases splitNl cs2 <;> simp
      | cons l ls =>
        rw [hsp] at ih
        simp [joinNl, ← ih]
    · simp only [splitNl, if_neg hc]
      cases hsp : splitNl cs with
      | nil => rw [hsp] at ih; simp [joinNl] at ih; simp [joinNl, ih]
      | cons l ls =>
        rw [hsp] at ih
        cases ls with
        | nil => simp [joinNl] at ih ⊢; simp [ih]
        | cons l2 ls2 => simp [joinNl] at ih ⊢; simp [ih]

theorem splitNl_noNl {l : Str} (h : '\n' ∉ l) : splitNl l = [l] := by
  induction l with
  | nil => rfl
  | cons c cs ih =>
    have hc : ¬c = '\n' := fun he => h (by simp [he])
    simp only [splitNl, if_neg hc]
    rw [ih (fun hm => h (by simp [hm]))]

theorem splitNl_ne_nil (s : Str) : splitNl s ≠ [] := by
  cases s with
  | nil => simp [splitNl]
  | cons c cs =>
    by_cases hc : c = '\n' <;> simp only [splitNl, hc, if_pos, if_neg, reduceIte]
    · simp
    · cases splitNl cs <;> simp

theorem splitNl_append_noNl {l : Str} (h : '\n' ∉ l) (r : Str) :
    splitNl (l ++ '\n' :: r) = l :: splitNl r := by
  induction l with
  | nil => simp [splitNl]
  | cons c cs ih =>
    have hc : ¬c = '\n' := fun he => h (by simp [he])
    have hstep : (c :: cs) ++ '\n' :: r = c :: (cs ++ '\n' :: r) := rfl
    rw [hstep]
    simp only [splitNl, if_neg hc]
    rw [ih (fun hm => h (by simp [hm]))]

/-- Splitting a newline-joined list of newline-free lines recovers it. -/
theorem splitNl_joinNl {ls : List Str} (hne : ls ≠ [])
    (h : ∀ l ∈ ls, '\n' ∉ l) : splitNl (joinNl ls) = ls := by
  induction ls with
  | nil => simp at hne
  | cons l ls2 ih =>
    cases ls2 with
    | nil => simp [joinNl, splitNl_noNl (h l (by simp))]
    | cons l2 ls3 =>
      have : joinNl (l :: l2 :: ls3) = l ++ '\n' :: joinNl (l2 :: ls3) := rfl
      rw [this, splitNl_append_noNl (h l (by simp)),
        ih (by simp) (fun x hx => h x (by simp [hx]))]

theorem dropTrailingNl_noNl {l : Str} (h : '\n' ∉ l) : dropTrailingNl l = l := by
  induction l with
  | nil => rfl
  | cons c cs ih =>
    have hc : ¬c = '\n' := fun he => h (by simp [he])
    simp only [dropTrailingNl]
    rw [ih (fun hm => h (by simp [hm]))]
    cases cs with
    | nil => simp [hc]
    | cons d ds => simp

theorem dropTrailingNl_append_of_ne {l2 : Str} (h : dropTrailingNl l2 ≠ []) (l1 : Str) :
    dropTrailingNl (l1 ++ l2) = l1 ++ dropTrailingNl l2 := by
  induction l1 with
  | nil => simp
  | cons c cs ih =>
    have hstep : (c :: cs) ++ l2 = c :: (cs ++ l2) := rfl
    rw [hstep]
    simp only [dropTrailingNl]
    rw [ih, List.cons_append]
    cases hd : cs ++ dropTrailingNl l2 with
    | nil =>
      exfalso
      exact h (List.append_eq_nil.mp hd).2
    | cons d ds => rfl

theorem dropTrailingNl_append_nl (l : Str) :
    dropTrailingNl (l ++ ['\n']) = dropTrailingNl l := by
  induction l with
  | nil => rfl
  | cons c cs ih =>
    have hstep : (c :: cs) ++ ['\n'] = c :: (cs ++ ['\n']) := rfl
    rw [hstep]
    simp only [dropTrailingNl]
    rw [ih]

/-! ### Lemmas about the newline-run collapse -/

theorem collapseAux_cons_ne {c : Char} (h : c ≠ '\n') (k : Nat) (r : Str) :
    collapseAux k (c :: r) = emitNl k ++ c :: collapseAux 0 r := by
  simp [collapseAux, h]

theorem collapseAux_append_noNl {s : Str} (h : '\n' ∉ s) (r : Str) :
    collapseAux 0 (s ++ r) = s ++ collapseAux 0 r := by
  induction s with
  | nil => simp
  | cons c cs ih =>
    have hc : c ≠ '\n' := fun he => h (by simp [he])
    rw [List.cons_append, collapseAux_cons_ne hc, ih (fun hm => h (by simp [hm]))]
    simp [emitNl]

theorem collapseAux_replicate (k n : Nat) (r : Str) :
    collapseAux k (List.replicate n '\n' ++ r) = collapseAux (k + n) r := by
  induction n generalizing k with
  | zero => simp
  | succ m ih =>
    rw [List.replicate_succ, List.cons_append]
    have : collapseAux k ('\n' :: (List.replicate m '\n' ++ r))
        = collapseAux (k + 1) (List.replicate m '\n' ++ r) := by simp [collapseAux]
    rw [this, ih]
    congr 1
    omega

theorem collapseAux_nil (k : Nat) : collapseAux k [] = emitNl k := rfl

/-! ### Lemmas about the leftmost scan -/

theorem findFrom_cons_none {m : Str → Option Nat} {c : Char} {r : Str}
    (h : m (c :: r) = none) (i : Nat) : findFrom m i (c :: r) = findFrom m (i + 1) r := by
  simp [findFrom, h]

theorem findFrom_some {m : Str → Option Nat} {s : Str} {k : Nat}
    (h : m s = some k) (i : Nat) : findFrom m i s = some (i, k) := by
  cases s <;> simp [findFrom, h]

theorem findFrom_none_all {m : Str → Option Nat} {s : Str}
    (h : ∀ i, m (s.drop i) = none) (j : Nat) : findFrom m j s = none := by
  induction s generalizing j with
  | nil =>
    have := h 0
    simp only [List.drop_nil] at this
    simp [findFrom, this]
  | cons c cs ih =>
    have h0 := h 0
    simp only [List.drop_zero] at h0
    rw [findFrom_cons_none h0]
    exact ih (fun i => by have := h (i + 1); simpa using this) _

/-- Positions that a newline-anchored matcher can safely skip: every
newline in the segment is followed, inside the segment, by a character
that refutes the match, and the segment does not end with a newline. -/
def skipOK (accept : Char → Bool) : Str → Bool
  | [] => true
  | c :: rest =>
    if c = '\n' then
      match rest with
      | [] => false
      | c2 :: _ => !accept c2 && skipOK accept rest
    else skipOK accept rest

theorem skipOK_nl_nil (a : Char → Bool) : skipOK a ['\n'] = false := rfl

theorem skipOK_nl_cons (a : Char → Bool) (c2 : Char) (cs2 : Str) :
    skipOK a ('\n' :: c2 :: cs2) = (!a c2 && skipOK a (c2 :: cs2)) := rfl

theorem skipOK_cons_ne {c : Char} (h : ¬c = '\n') (a : Char → Bool) (cs : Str) :
    skipOK a (c :: cs) = skipOK a cs := by
  cases cs with
  | nil => simp [skipOK, h]
  | cons d ds => simp [skipOK, h]

theorem skipOK_noNl {a : Char → Bool} {s : Str} (h : '\n' ∉ s) : skipOK a s = true := by
  induction s with
  | nil => rfl
  | cons c cs ih =>
    have hc : ¬c = '\n' := fun he => h (by simp [he])
    rw [skipOK_cons_ne hc]
    exact ih (fun hm => h (by simp [hm]))

theorem skipOK_append {a : Char → Bool} {s1 s2 : Str}
    (h1 : skipOK a s1 = true) (h2 : skipOK a s2 = true) : skipOK a (s1 ++ s2) = true := by
  induction s1 with
  | nil => simpa using h2
  | cons c cs ih =>
    by_cases hc : c = '\n'
    · subst hc
      cases cs with
      | nil => rw [skipOK_nl_nil] at h1; exact absurd h1 (by simp)
      | cons c2 cs2 =>
        rw [skipOK_nl_cons, Bool.and_eq_true] at h1
        rw [List.cons_append, List.cons_append, skipOK_nl_cons, Bool.and_eq_true]
        refine ⟨h1.1, ?_⟩
        have hrec := ih h1.2
        rw [List.cons_append] at hrec
        exact hrec
    · rw [skipOK_cons_ne hc] at h1
      rw [List.cons_append, skipOK_cons_ne hc]
      exact ih h1

/-- A newline-anchored matcher finds nothing inside a `skipOK` segment:
the scan continues past it with the position advanced by its length. -/
theorem findFrom_skipOK {m : Str → Option Nat} {accept : Char → Bool}
    (hm1 : ∀ c r, c ≠ '\n' → m (c :: r) = none)
    (hm2 : ∀ c r, accept c = false → m ('\n' :: c :: r) = none)
    {s : Str} (h : skipOK accept s = true) (i : Nat) (r : Str) :
    findFrom m i (s ++ r) = findFrom m (i + s.length) r := by
  induction s generalizing i with
  | nil => simp
  | cons c cs ih =>
    by_cases hc : c = '\n'
    · subst hc
      cases cs with
      | nil => rw [skipOK_nl_nil] at h; exact absurd h (by simp)
      | cons c2 cs2 =>
        rw [skipOK_nl_cons, Bool.and_eq_true, Bool.not_eq_true'] at h
        rw [List.cons_append, List.cons_append, findFrom_cons_none (hm2 c2 _ h.1)]
        have hrec := ih h.2 (i + 1)
        rw [List.cons_append] at hrec
        rw [hrec]
        congr 1
        simp only [List.length_cons]
        omega
    · rw [skipOK_cons_ne hc] at h
      rw [List.cons_append, findFrom_cons_none (hm1 c _ hc), ih h]
      congr 1
      simp only [List.length_cons]
      omega

/-! ### Head and refutation lemmas for the individual matchers -/

theorem pfx_cons_ne {p0 c : Char} {ps r : Str} (h : ¬p0 = c) :
    pfx (p0 :: ps) (c :: r) = false := by
  simp [pfx, h]

theorem argEntryAt_not_nl {ind arg : Str} {c : Char} {r : Str} (h : c ≠ '\n') :
    argEntryAt ind arg (c :: r) = none := by
  simp [argEntryAt, h]

theorem insertPtAt_not_nl {ind : Str} {c : Char} {r : Str} (h : c ≠ '\n') :
    insertPtAt ind (c :: r) = none := by
  simp [insertPtAt, h]

theorem litAt_not_head {p0 c : Char} {ps r : Str} (h : c ≠ p0) :
    litAt (p0 :: ps) (c :: r) = none := by
  simp [litAt, pfx_cons_ne (fun he => h he.symm)]

theorem paramsHeaderAt_not_P {c : Char} {r : Str} (h : c ≠ 'P') :
    paramsHeaderAt (c :: r) = none := by
  have h1 : ("Parameters".data : Str) = 'P' :: "arameters".data := rfl
  have h2 : pfx "Parameters".data (c :: r) = false := by
    rw [h1, pfx_cons_ne (fun he => h he.symm)]
  simp [paramsHeaderAt, h2]

theorem argEntryAt_nil_indent_refute {a0 : Char} {arest : Str} {c : Char} {r : Str}
    (h : c ≠ a0) : argEntryAt [] (a0 :: arest) ('\n' :: c :: r) = none := by
  have h2 : pfx (a0 :: arest) (c :: r) = false := pfx_cons_ne (fun he => h he.symm)
  simp [argEntryAt, h2]

theorem insertPtAt_nil_indent_refute {c : Char} {r : Str} (h : isSpace c = true) :
    insertPtAt [] ('\n' :: c :: r) = none := by
  simp [insertPtAt, pfx, h]

theorem litAt_nl_refute {p1 c : Char} {ps r : Str} (h : c ≠ p1) :
    litAt ('\n' :: p1 :: ps) ('\n' :: c :: r) = none := by
  have h2 : pfx ('\n' :: p1 :: ps) ('\n' :: c :: r) = false := by
    have hstep : pfx ('\n' :: p1 :: ps) ('\n' :: c :: r)
        = (decide ('\n' = '\n') && pfx (p1 :: ps) (c :: r)) := rfl
    rw [hstep, pfx_cons_ne (fun he => h he.symm)]
    simp
  simp [litAt, h2]

/-! ### Global refuters: a match forces a character to occur -/

theorem mem_of_mem_take {c : Char} {n : Nat} {s : Str} (h : c ∈ s.take n) : c ∈ s :=
  List.mem_of_mem_take h

theorem mem_of_mem_drop {c : Char} {n : Nat} {s : Str} (h : c ∈ s.drop n) : c ∈ s :=
  List.mem_of_mem_drop h

theorem paramsHeaderAt_dash {s : Str} {k : Nat} (h : paramsHeaderAt s = some k) :
    '-' ∈ s := by
  unfold paramsHeaderAt at h
  dsimp only at h
  split at h
  · split at h
    · split at h
      · rename_i h3
        exact mem_of_mem_drop (mem_of_mem_drop (pfx_mem h3 (by decide)))
      · exact absurd h (by simp)
    · exact absurd h (by simp)
  · exact absurd h (by simp)

theorem litAt_forces {pat s : Str} {k : Nat} (h : litAt pat s = some k)
    {c : Char} (hc : c ∈ pat) : c ∈ s := by
  unfold litAt at h
  split at h
  · rename_i h1
    exact pfx_mem h1 hc
  · exact absurd h (by simp)

theorem argEntryAt_forces {ind arg s : Str} {k : Nat} (h : argEntryAt ind arg s = some k)
    {c : Char} (hc : c ∈ arg) : c ∈ s := by
  unfold argEntryAt at h
  split at h
  · exact absurd h (by simp)
  · rename_i c0 rest
    split at h
    · split at h
      · rename_i h1
        exact List.mem_cons_of_mem _ (pfx_mem h1 (List.mem_append_right ind hc))
      · exact absurd h (by simp)
    · exact absurd h (by simp)

/-! ### Lemmas about the dedent embedding -/

theorem map_id_of_eq {α : Type} {f : α → α} {l : List α} (h : ∀ a ∈ l, f a = a) :
    l.map f = l := by
  induction l with
  | nil => rfl
  | cons x xs ih => simp [h x (by simp), ih (fun a ha => h a (by simp [ha]))]

theorem wsOnlyLine_false_of_ink {l : Str} (h : ∃ c ∈ l, isIndentChar c = false) :
    wsOnlyLine l = false := by
  obtain ⟨c, hc, hic⟩ := h
  unfold wsOnlyLine
  simp only [Bool.and_eq_false_imp]
  intro _
  rw [List.all_eq_false]
  exact ⟨c, hc, by simp [hic]⟩

theorem lineIndent_nil_of_head {l : Str} (h : ∀ c, l.head? = some c → isIndentChar c = false) :
    lineIndent l = [] := by
  cases l with
  | nil => rfl
  | cons c cs =>
    have := h c rfl
    simp [lineIndent, List.takeWhile, this]

theorem marginStep_to_nil (m : Str) : marginStep m [] = [] := by
  cases m with
  | nil => rfl
  | cons c cs => simp [marginStep, pfx]

theorem marginStep_nil (x : Str) : marginStep [] x = [] := by
  simp [marginStep, pfx]

theorem foldl_marginStep_nil (l : List Str) : l.foldl marginStep [] = [] := by
  induction l with
  | nil => rfl
  | cons x xs ih => rw [List.foldl_cons, marginStep_nil]; exact ih

theorem foldl_marginStep_eq_nil {i : Str} {is : List Str} (h : [] ∈ i :: is) :
    is.foldl marginStep i = [] := by
  induction is generalizing i with
  | nil =>
    rcases List.mem_cons.mp h with h1 | h1
    · simp [h1.symm]
    · simp at h1
  | cons x xs ih =>
    rcases List.mem_cons.mp h with h1 | h1
    · rw [← h1, List.foldl_cons, marginStep_nil]
      exact foldl_marginStep_nil xs
    · rw [List.foldl_cons]
      rcases List.mem_cons.mp h1 with h2 | h2
      · rw [← h2, marginStep_to_nil]
        exact foldl_marginStep_nil xs
      · exact ih (by simp [h2])

/-- `textwrap.dedent` is the identity on text with no blank-and-tab lines
and at least one nonempty line with no leading indentation. -/
theorem pydedent_id {s : Str}
    (h1 : ∀ l ∈ splitNl s, wsOnlyLine l = false)
    (h2 : ∃ l ∈ splitNl s, l ≠ [] ∧ lineIndent l = []) :
    pydedent s = s := by
  have hmap : (splitNl s).map (fun l => if wsOnlyLine l then [] else l) = splitNl s :=
    map_id_of_eq (fun l hl => by simp [h1 l hl])
  have hmem : ([] : Str) ∈ ((splitNl s).filter (fun l => decide (l ≠ []))).map lineIndent := by
    obtain ⟨l, hl, hlne, hli⟩ := h2
    rw [List.mem_map]
    exact ⟨l, by rw [List.mem_filter]; exact ⟨hl, by simpa using hlne⟩, hli⟩
  unfold pydedent
  dsimp only
  rw [hmap]
  cases hind : ((splitNl s).filter (fun l => decide (l ≠ []))).map lineIndent with
  | nil =>
    rw [hind] at hmem
    simp at hmem
  | cons i is =>
    rw [hind] at hmem
    dsimp only
    rw [foldl_marginStep_eq_nil hmem]
    rw [map_id_of_eq (fun l _ => by simp [pfx])]
    exact joinNl_splitNl s

/-! ## Claim-side formulations

The following definitions restate the message formats the way the claims
and spec describe them (template text with the fields spliced in by plain
concatenation); the claim theorems relate them to the embedded code. -/

/-- The entity-level message the claim describes: the CallShape template
with the name substituted, then the three optional clauses in fixed
order. -/
def specEntityMsg (wrappedIsClass : Bool) (inst : Option Bool) (name r v rv : Str) : Str :=
  (match inst with
   | none =>
     if wrappedIsClass then "Call to deprecated class ".data ++ name ++ ".".data
     else "Call to deprecated function (or staticmethod) ".data ++ name ++ ".".data
   | some instIsClass =>
     if instIsClass then "Call to deprecated class method ".data ++ name ++ ".".data
     else "Call to deprecated method ".data ++ name ++ ".".data)
  ++ (if r = [] then [] else " (".data ++ r ++ ")".data)
  ++ (if v = [] then [] else "\n-- Deprecated since version ".data ++ v ++ ".".data)
  ++ (if rv = [] then [] else "\n-- Will be removed in version ".data ++ rv ++ ".".data)

/-- The per-parameter message the claim describes, built from the
parameter's own sub-record. -/
def specArgMsg (n : Str) (sp : ArgSpec) : Str :=
  "Call to deprecated Parameter ".data ++ n ++ ".".data
  ++ (match sp.reason with
      | none => []
      | some r => " (".data ++ r ++ ")".data)
  ++ (match sp.version with
      | none => []
      | some v => "\n-- Deprecated since v".data ++ v ++ ".".data)
  ++ (match sp.remove_version with
      | none => []
      | some rv => "\n-- Will be removed in version ".data ++ rv ++ ".".data)

theorem argMsg_eq_spec (n : Str) (sp : ArgSpec) : argMsg n sp = specArgMsg n sp := by
  obtain ⟨r, v, rv⟩ := sp
  cases r
  all_goals cases v
  all_goals cases rv
  all_goals simp only [argMsg, specArgMsg, Option.isSome_some, Option.isSome_none,
    ite_true, ite_false, Bool.false_eq_true, List.append_nil, List.append_assoc]
  all_goals rfl

/-! ## Claim theorems -/

/-- Claim C4: for every wrapped entity whose spec has no deprecated_args,
each call produces exactly one message, keyed by the entity's name, built
from the CallShape-selected template with, in fixed order, the reason
clause iff the reason is non-empty, the version clause iff the version is
non-empty, and the removal clause iff the removal version is non-empty;
empty fields leave no residual text. -/
theorem claim_C4_entity_messages (wic : Bool) (inst : Option Bool)
    (name r v rv : Str) (act : Option Str) (kwargs : List Str) :
    getDeprecatedMsg ⟨r, v, rv, act, none⟩ wic inst name kwargs
      = some [(name, specEntityMsg wic inst name r v rv)] := by
  rcases inst with _ | ib
  all_goals cases wic
  all_goals try cases ib
  all_goals by_cases hr : r = []
  all_goals by_cases hv : v = []
  all_goals by_cases hrv : rv = []
  all_goals simp only [getDeprecatedMsg, entityFmt, specEntityMsg, ne_eq, hr, hv, hrv,
    not_true_eq_false, not_false_eq_true, ite_true, ite_false, Bool.false_eq_true,
    Bool.true_eq_false, List.append_nil, List.append_assoc]
  all_goals rfl

/-! ## The numpydoc docstring families used by the splicing claims -/

/-- A parameter entry of the families: the header line followed by one
description line indented by four blanks. -/
def entry (name d : Str) : Str := name ++ '\n' :: ("    ".data ++ d)

/-- Well-formedness of a description used by the families: single-line,
dash-free, and with at least one character that is not a blank or tab. -/
def goodDesc (d : Str) : Prop :=
  (∀ c ∈ d, c ≠ '\n' ∧ c ≠ '-') ∧ ∃ c ∈ d, isIndentChar c = false

/-- The three-parameter docstring body (entries `x`, `a`, `b` in order)
with a given tail after the last description. -/
def body3 (dX dA dB tail : Str) : Str :=
  "Parameters".data ++ '\n' :: ("----------".data ++ '\n' ::
    (entry "x : int".data dX ++ '\n' :: (entry "a : int".data dA ++ '\n' ::
      (entry "b : int".data dB ++ tail))))

/-- The three-parameter docstring family as a raw `__doc__` value. -/
def mkDoc3 (dX dA dB : Str) : Str := '\n' :: body3 dX dA dB "\n".data

/-- The same docstring after the normalisation at the top of `__call__`. -/
def mkDoc3N (dX dA dB : Str) : Str := '\n' :: body3 dX dA dB "\n\n".data

theorem not_mem_of_forall_ne {ch : Char} {d : Str} (h : ∀ c ∈ d, c ≠ ch) : ch ∉ d :=
  fun hm => h ch hm rfl

theorem goodDesc_noNl {d : Str} (h : goodDesc d) : '\n' ∉ d :=
  not_mem_of_forall_ne (fun c hc => (h.1 c hc).1)

theorem goodDesc_noDash {d : Str} (h : goodDesc d) : '-' ∉ d :=
  not_mem_of_forall_ne (fun c hc => (h.1 c hc).2)

/-- No match of the Parameters-header pattern anywhere in a dash-free
string. -/
theorem noParamsHeader {s : Str} (h : '-' ∉ s) : reSearch paramsHeaderAt s = none := by
  unfold reSearch
  apply findFrom_none_all
  intro i
  cases hm : paramsHeaderAt (s.drop i) with
  | none => rfl
  | some k => exact absurd (mem_of_mem_drop (paramsHeaderAt_dash hm)) h

/-- No match of the next-section pattern anywhere in a dash-free string. -/
theorem noSectionEnd {s : Str} (h : '-' ∉ s) (indent : Str) :
    reSearch (litAt ('\n' :: (indent ++ "-----".data))) s = none := by
  unfold reSearch
  apply findFrom_none_all
  intro i
  cases hm : litAt ('\n' :: (indent ++ "-----".data)) (s.drop i) with
  | none => rfl
  | some k =>
    refine absurd (mem_of_mem_drop (litAt_forces hm ?_)) h
    exact List.mem_cons_of_mem _ (List.mem_append_right _ (by decide))

/-- No match of the parameter-entry pattern in a string not containing a
character of the parameter name. -/
theorem noArgEntry {arg s : Str} {ch : Char} (hch : ch ∈ arg) (h : ch ∉ s)
    (indent : Str) : reSearch (argEntryAt indent arg) s = none := by
  unfold reSearch
  apply findFrom_none_all
  intro i
  cases hm : argEntryAt indent arg (s.drop i) with
  | none => rfl
  | some k => exact absurd (mem_of_mem_drop (argEntryAt_forces hm hch)) h

/-- The header search on the three-parameter family finds the header at
position 1 with match length 21. -/
theorem headerSearch3 (dX dA dB tail : Str) :
    reSearch paramsHeaderAt ('\n' :: body3 dX dA dB tail) = some (1, 21) := by
  unfold reSearch
  rw [findFrom_cons_none (paramsHeaderAt_not_P (by decide))]
  exact findFrom_some rfl 1

theorem splitNl_mkDoc3 {dX dA dB : Str} (hX : '\n' ∉ dX) (hA : '\n' ∉ dA)
    (hB : '\n' ∉ dB) :
    splitNl (mkDoc3 dX dA dB)
      = [[], "Parameters".data, "----------".data, "x : int".data, "    ".data ++ dX,
         "a : int".data, "    ".data ++ dA, "b : int".data, "    ".data ++ dB, []] := by
  have hindX : '\n' ∉ "    ".data ++ dX := by
    simp only [List.mem_append]
    rintro (h1 | h1)
    · exact absurd h1 (by decide)
    · exact hX h1
  have hindA : '\n' ∉ "    ".data ++ dA := by
    simp only [List.mem_append]
    rintro (h1 | h1)
    · exact absurd h1 (by decide)
    · exact hA h1
  have hindB : '\n' ∉ "    ".data ++ dB := by
    simp only [List.mem_append]
    rintro (h1 | h1)
    · exact absurd h1 (by decide)
    · exact hB h1
  unfold mkDoc3 body3 entry
  rw [show ('\n' :: ("Parameters".data ++ '\n' :: ("----------".data ++ '\n' ::
      (("x : int".data ++ '\n' :: ("    ".data ++ dX)) ++ '\n' ::
        (("a : int".data ++ '\n' :: ("    ".data ++ dA)) ++ '\n' ::
          (("b : int".data ++ '\n' :: ("    ".data ++ dB)) ++ "\n".data)))))
      : Str)
    = ([] : Str) ++ '\n' :: ("Parameters".data ++ '\n' :: ("----------".data ++ '\n' ::
        ("x : int".data ++ '\n' :: (("    ".data ++ dX) ++ '\n' ::
          ("a : int".data ++ '\n' :: (("    ".data ++ dA) ++ '\n' ::
            ("b : int".data ++ '\n' :: (("    ".data ++ dB) ++ '\n' :: ([] : Str)))))))))
    from by simp [List.append_assoc]]
  rw [splitNl_append_noNl (by simp), splitNl_append_noNl (by decide),
    splitNl_append_noNl (by decide), splitNl_append_noNl (by decide),
    splitNl_append_noNl hindX, splitNl_append_noNl (by decide),
    splitNl_append_noNl hindA, splitNl_append_noNl (by decide),
    splitNl_append_noNl hindB]
  rfl

theorem normalizeDoc_mkDoc3 {dX dA dB : Str} (hX : goodDesc dX) (hA : goodDesc dA)
    (hB : goodDesc dB) : normalizeDoc (mkDoc3 dX dA dB) = mkDoc3N dX dA dB := by
  have hXn := goodDesc_noNl hX
  have hAn := goodDesc_noNl hA
  have hBn := goodDesc_noNl hB
  have hded : pydedent (mkDoc3 dX dA dB) = mkDoc3 dX dA dB := by
    refine pydedent_id ?_ ?_
    · rw [splitNl_mkDoc3 hXn hAn hBn]
      intro l hl
      simp only [List.mem_cons, List.not_mem_nil, or_false] at hl
      rcases hl with h | h | h | h | h | h | h | h | h | h
      all_goals subst h
      all_goals first
        | rfl
        | decide
        | (refine wsOnlyLine_false_of_ink ?_
           first
             | (obtain ⟨c, hc, hic⟩ := hX.2
                exact ⟨c, List.mem_append_right _ hc, hic⟩)
             | (obtain ⟨c, hc, hic⟩ := hA.2
                exact ⟨c, List.mem_append_right _ hc, hic⟩)
             | (obtain ⟨c, hc, hic⟩ := hB.2
                exact ⟨c, List.mem_append_right _ hc, hic⟩))
    · rw [splitNl_mkDoc3 hXn hAn hBn]
      exact ⟨"Parameters".data, by simp, by decide, by decide⟩
  have hdropB : dropTrailingNl (("    ".data ++ dB) ++ "\n".data)
      = "    ".data ++ dB := by
    rw [show ("\n".data : Str) = ['\n'] from rfl, dropTrailingNl_append_nl]
    refine dropTrailingNl_noNl ?_
    simp only [List.mem_append]
    rintro (h1 | h1)
    · exact absurd h1 (by decide)
    · exact hBn h1
  have hdne : ("    ".data ++ dB : Str) ≠ [] := by
    intro he
    exact absurd (List.append_eq_nil.mp he).1 (by decide)
  unfold normalizeDoc
  rw [hded]
  rw [if_pos ?hne]
  case hne =>
    unfold mkDoc3
    simp
  unfold mkDoc3 mkDoc3N body3 entry
  rw [show ('\n' :: ("Parameters".data ++ '\n' :: ("----------".data ++ '\n' ::
      (("x : int".data ++ '\n' :: ("    ".data ++ dX)) ++ '\n' ::
        (("a : int".data ++ '\n' :: ("    ".data ++ dA)) ++ '\n' ::
          (("b : int".data ++ '\n' :: ("    ".data ++ dB)) ++ "\n".data)))))
      : Str)
    = ('\n' :: ("Parameters".data ++ '\n' :: ("----------".data ++ '\n' ::
        (("x : int".data ++ '\n' :: ("    ".data ++ dX)) ++ '\n' ::
          (("a : int".data ++ '\n' :: ("    ".data ++ dA)) ++ '\n' ::
            ("b : int".data ++ '\n' :: ([] : Str)))))))
      ++ (("    ".data ++ dB) ++ "\n".data)
    from by simp [List.append_assoc]]
  rw [dropTrailingNl_append_of_ne (by rw [hdropB]; exact hdne), hdropB]
  simp [List.append_assoc]

theorem not_mem_entry {ch : Char} {n d : Str} (hch : ¬ch = '\n') (hsp : ¬ch = ' ')
    (hn : ch ∉ n) (hd : ch ∉ d) : ch ∉ entry n d := by
  unfold entry
  intro hmem
  rcases List.mem_append.mp hmem with h | h
  · exact hn h
  · rcases List.mem_cons.mp h with h | h
    · exact hch h
    · rcases List.mem_append.mp h with h | h
      · rw [show ("    ".data : Str) = [' ', ' ', ' ', ' '] from rfl] at h
        simp only [List.mem_cons, List.not_mem_nil, or_false, or_self] at h
        exact hsp h
      · exact hd h

theorem not_mem_body3 {ch : Char} {dX dA dB tail : Str}
    (hch : ¬ch = '\n') (hsp : ¬ch = ' ')
    (hP : ch ∉ ("Parameters".data : Str)) (hD : ch ∉ ("----------".data : Str))
    (hx : ch ∉ ("x : int".data : Str)) (ha : ch ∉ ("a : int".data : Str))
    (hb : ch ∉ ("b : int".data : Str))
    (hdX : ch ∉ dX) (hdA : ch ∉ dA) (hdB : ch ∉ dB) (ht : ch ∉ tail) :
    ch ∉ body3 dX dA dB tail := by
  unfold body3
  intro hmem
  rcases List.mem_append.mp hmem with h | h
  · exact hP h
  rcases List.mem_cons.mp h with h | h
  · exact hch h
  rcases List.mem_append.mp h with h | h
  · exact hD h
  rcases List.mem_cons.mp h with h | h
  · exact hch h
  rcases List.mem_append.mp h with h | h
  · exact not_mem_entry hch hsp hx hdX h
  rcases List.mem_cons.mp h with h | h
  · exact hch h
  rcases List.mem_append.mp h with h | h
  · exact not_mem_entry hch hsp ha hdA h
  rcases List.mem_cons.mp h with h | h
  · exact hch h
  rcases List.mem_append.mp h with h | h
  · exact not_mem_entry hch hsp hb hdB h
  · exact ht h

/-- Membership bound for the tail of the families after the Parameters
underline. -/
theorem not_mem_rest3 {ch : Char} {dX dA dB tail : Str}
    (hch : ¬ch = '\n') (hsp : ¬ch = ' ')
    (hx : ch ∉ ("x : int".data : Str)) (ha : ch ∉ ("a : int".data : Str))
    (hb : ch ∉ ("b : int".data : Str))
    (hdX : ch ∉ dX) (hdA : ch ∉ dA) (hdB : ch ∉ dB) (ht : ch ∉ tail) :
    ch ∉ ('\n' :: (entry "x : int".data dX ++ '\n' :: (entry "a : int".data dA ++ '\n' ::
      (entry "b : int".data dB ++ tail))) : Str) := by
  intro hmem
  rcases List.mem_cons.mp hmem with h | h
  · exact hch h
  rcases List.mem_append.mp h with h | h
  · exact not_mem_entry hch hsp hx hdX h
  rcases List.mem_cons.mp h with h | h
  · exact hch h
  rcases List.mem_append.mp h with h | h
  · exact not_mem_entry hch hsp ha hdA h
  rcases List.mem_cons.mp h with h | h
  · exact hch h
  rcases List.mem_append.mp h with h | h
  · exact not_mem_entry hch hsp hb hdB h
  · exact ht h

/-- The splice iteration on the three-parameter family for a parameter
`q` that has no entry: the docstring is untouched and a
missing-description advisory is appended. -/
theorem spliceArg_missing_q {dX dA dB : Str} (rm : Str) (adv : List Advisory) (sr : Str)
    (spec : ArgSpec) (hX : goodDesc dX) (hA : goodDesc dA) (hB : goodDesc dB)
    (hqX : 'q' ∉ dX) (hqA : 'q' ∉ dA) (hqB : 'q' ∉ dB) :
    spliceArg rm ⟨mkDoc3N dX dA dB, adv, sr⟩ "q".data spec
      = .ok ⟨mkDoc3N dX dA dB, adv ++ [⟨.user, .missingDescription "q".data⟩], sr⟩ := by
  have hdoc : mkDoc3N dX dA dB = '\n' :: body3 dX dA dB "\n\n".data := rfl
  have hdash : '-' ∉ ('\n' :: (entry "x : int".data dX ++ '\n' ::
      (entry "a : int".data dA ++ '\n' :: (entry "b : int".data dB ++ "\n\n".data))) : Str) :=
    not_mem_rest3 (by decide) (by decide) (by decide) (by decide) (by decide)
      (goodDesc_noDash hX) (goodDesc_noDash hA) (goodDesc_noDash hB) (by decide)
  have hq : 'q' ∉ body3 dX dA dB "\n\n".data :=
    not_mem_body3 (by decide) (by decide) (by decide) (by decide) (by decide)
      (by decide) (by decide) hqX hqA hqB (by decide)
  unfold spliceArg
  dsimp only
  rw [hdoc, headerSearch3]
  dsimp only
  rw [show ((('\n' :: body3 dX dA dB "\n\n".data).drop 1).take 21 : Str)
      = "Parameters\n----------".data from rfl]
  rw [show dashesStart "Parameters\n----------".data = some 11 from rfl]
  rw [show paramsNlEnd "Parameters\n----------".data = some 11 from rfl]
  dsimp only
  unfold computeParamsSection
  have hsec : reSearch (litAt ('\n' :: (List.replicate (11 - 11) ' ' ++ "-----".data)))
      (('\n' :: body3 dX dA dB "\n\n".data).drop (1 + 21)) = none := by
    rw [show (('\n' :: body3 dX dA dB "\n\n".data).drop (1 + 21) : Str)
        = '\n' :: (entry "x : int".data dX ++ '\n' :: (entry "a : int".data dA ++ '\n' ::
            (entry "b : int".data dB ++ "\n\n".data))) from rfl]
    exact noSectionEnd hdash _
  rw [hsec]
  dsimp only
  have hargq : reSearch (argEntryAt (List.replicate (11 - 11) ' ') "q".data)
      (('\n' :: body3 dX dA dB "\n\n".data).drop 1) = none := by
    refine noArgEntry (show ('q' : Char) ∈ "q".data from by decide) ?_ _
    intro hm
    rcases List.mem_cons.mp (mem_of_mem_drop hm) with h | h
    · exact absurd h (by decide)
    · exact hq h
  rw [hargq]

/-- Normalisation of a single-line docstring with visible content and an
unindented first character: only the trailing blank line is added. -/
theorem normalizeDoc_single {d : Str} (hnl : '\n' ∉ d)
    (hink : ∃ c ∈ d, isIndentChar c = false)
    (hhead : ∀ c, d.head? = some c → isIndentChar c = false) :
    normalizeDoc d = d ++ "\n\n".data := by
  have hdne : d ≠ [] := by
    obtain ⟨c, hc, _⟩ := hink
    intro he
    rw [he] at hc
    simp at hc
  have hded : pydedent d = d := by
    refine pydedent_id ?_ ?_
    · rw [splitNl_noNl hnl]
      intro l hl
      rw [List.mem_singleton] at hl
      rw [hl]
      exact wsOnlyLine_false_of_ink hink
    · rw [splitNl_noNl hnl]
      exact ⟨d, by simp, hdne, lineIndent_nil_of_head hhead⟩
  unfold normalizeDoc
  rw [hded, if_pos hdne, dropTrailingNl_noNl hnl]

/-- `textwrap.indent` with an empty prefix is the identity. -/
theorem indentPy_nil (text : Str) : indentPy text [] = text := by
  unfold indentPy
  rw [show ((splitNl text).map (fun l => if stripPy l ≠ [] then [] ++ l else l) : List Str)
      = splitNl text from map_id_of_eq (fun l _ => by split <;> rfl)]
  exact joinNl_splitNl text

/-- Joining a single line appends one newline. -/
theorem joinLinesNl_single (l : Str) : joinLinesNl [l] = l ++ ['\n'] := by
  unfold joinLinesNl
  simp

/-- The normalised family docstring is never the bare-newline docstring. -/
theorem mkDoc3N_ne_nl (dX dA dB : Str) : mkDoc3N dX dA dB ≠ "\n".data := by
  intro h
  have hP : ('P' : Char) ∈ mkDoc3N dX dA dB := by
    rw [show mkDoc3N dX dA dB = '\n' :: body3 dX dA dB "\n\n".data from rfl]
    refine List.mem_cons_of_mem _ ?_
    unfold body3
    exact List.mem_append_left _ (by decide)
  rw [h] at hP
  exact absurd hP (by decide)

/-! ## The admonition splice for parameter `a` on the three-parameter family -/

/-- Head of the formatted admonition (sphinx.py line 203 with `arg = a` and
the version spliced next). -/
def admonHead : Str :=
  "\n\n    .. admonition:: Deprecated\n      :class: warning\n\n      Parameter a deprecated since ".data

/-- Middle of the formatted admonition (the removal clause of line 205). -/
def admonMid : Str := " and will be removed in version ".data

/-- The single formatted admonition line for parameter `a` with a version
and a removal version present in the sub-record. -/
def admonLine (v rv : Str) : Str :=
  admonHead ++ (v ++ (admonMid ++ (rv ++ ".".data)))

/-- The docstring prefix up to the insertion point of `a`'s admonition. -/
def spliceT (dX dA : Str) : Str :=
  '\n' :: ("Parameters".data ++ '\n' :: ("----------".data ++ '\n' :: ("x : int".data
    ++ '\n' :: ("    ".data ++ (dX ++ ('\n' :: ("a : int".data
      ++ '\n' :: ("    ".data ++ dA))))))))

/-- The docstring suffix from the insertion point of `a`'s admonition. -/
def spliceR (dB : Str) : Str :=
  '\n' :: ("b : int".data ++ '\n' :: ("    ".data ++ (dB ++ "\n\n".data)))

/-- The family docstring after splicing the admonition for `a`: `x`'s and
`b`'s entries verbatim, the admonition between `a`'s description and `b`'s
entry. -/
def spliced3 (dX dA dB v rv : Str) : Str :=
  '\n' :: ("Parameters".data ++ '\n' :: ("----------".data ++ '\n' :: ("x : int".data
    ++ '\n' :: ("    ".data ++ (dX ++ ('\n' :: ("a : int".data ++ '\n' :: ("    ".data
      ++ (dA ++ (admonHead ++ (v ++ (admonMid ++ (rv ++ (".\n\nb : int\n    ".data
        ++ (dB ++ "\n\n".data)))))))))))))))

/-- The raw admonition-and-suffix region of the spliced docstring before
the final newline-collapse. -/
def rawTail (v rv dB : Str) : Str :=
  "\n\n".data ++ (admonHead ++ (v ++ (admonMid ++ (rv ++ (".".data ++ ('\n' :: ("\n\n".data
    ++ ('\n' :: ("b : int".data ++ '\n' :: ("    ".data ++ (dB ++ "\n\n".data)))))))))))

/-- The final newline-collapse on the spliced family docstring: the two
four-newline runs created by the splice shrink to blank lines and nothing
else changes. -/
theorem collapse_splice {dX dA dB v rv : Str} (hXn : '\n' ∉ dX) (hAn : '\n' ∉ dA)
    (hBn : '\n' ∉ dB) (hvn : '\n' ∉ v) (hrvn : '\n' ∉ rv) :
    collapse3 (spliceT dX dA ++ "\n\n".data ++ (admonLine v rv ++ ['\n']) ++ "\n\n".data
        ++ spliceR dB)
      = spliced3 dX dA dB v rv := by
  rw [show (spliceT dX dA ++ "\n\n".data ++ (admonLine v rv ++ ['\n']) ++ "\n\n".data
        ++ spliceR dB : Str)
      = '\n' :: ("Parameters".data ++ '\n' :: ("----------".data ++ '\n' :: ("x : int".data
          ++ '\n' :: ("    ".data ++ (dX ++ ('\n' :: ("a : int".data
            ++ '\n' :: ("    ".data ++ (dA ++ rawTail v rv dB)))))))))
    from by unfold spliceT admonLine spliceR rawTail; simp [List.append_assoc]]
  unfold collapse3
  rw [show collapseAux 0 ('\n' :: ("Parameters".data ++ '\n' :: ("----------".data
        ++ '\n' :: ("x : int".data ++ '\n' :: ("    ".data ++ (dX ++ ('\n' :: ("a : int".data
          ++ '\n' :: ("    ".data ++ (dA ++ rawTail v rv dB))))))))))
      = '\n' :: ("Parameters".data ++ '\n' :: ("----------".data
        ++ '\n' :: ("x : int".data ++ '\n' :: ("    ".data
          ++ collapseAux 0 (dX ++ ('\n' :: ("a : int".data
            ++ '\n' :: ("    ".data ++ (dA ++ rawTail v rv dB)))))))))
    from rfl]
  rw [collapseAux_append_noNl hXn]
  rw [show collapseAux 0 ('\n' :: ("a : int".data
        ++ '\n' :: ("    ".data ++ (dA ++ rawTail v rv dB))))
      = '\n' :: ("a : int".data ++ '\n' :: ("    ".data
        ++ collapseAux 0 (dA ++ rawTail v rv dB)))
    from rfl]
  rw [collapseAux_append_noNl hAn]
  rw [show collapseAux 0 (rawTail v rv dB)
      = admonHead ++ collapseAux 0 (v ++ (admonMid ++ (rv ++ (".".data ++ ('\n' ::
          ("\n\n".data ++ ('\n' :: ("b : int".data ++ '\n' :: ("    ".data
            ++ (dB ++ "\n\n".data))))))))))
    from rfl]
  rw [collapseAux_append_noNl hvn]
  rw [collapseAux_append_noNl (show ('\n' : Char) ∉ admonMid from by decide)]
  rw [collapseAux_append_noNl hrvn]
  rw [show collapseAux 0 (".".data ++ ('\n' :: ("\n\n".data
        ++ ('\n' :: ("b : int".data ++ '\n' :: ("    ".data
          ++ (dB ++ "\n\n".data)))))))
      = ".\n\nb : int\n    ".data ++ collapseAux 0 (dB ++ "\n\n".data)
    from rfl]
  rw [collapseAux_append_noNl hBn]
  rw [show collapseAux 0 ("\n\n".data : Str) = "\n\n".data from rfl]
  rfl

/-- The splice iteration on the three-parameter family for parameter `a`
with a version and a removal version: the admonition block lands between
`a`'s description and `b`'s entry, the rest of the docstring is
untouched, no advisory is emitted, and the adapter reason is unchanged. -/
theorem spliceArg_splice_a {dX dA dB v rv : Str} (rsn : Option Str) (adv : List Advisory)
    (hX : goodDesc dX) (hA : goodDesc dA) (hB : goodDesc dB)
    (hvn : '\n' ∉ v) (hrvn : '\n' ∉ rv) :
    spliceArg [] ⟨mkDoc3N dX dA dB, adv, []⟩ "a".data ⟨rsn, some v, some rv⟩
      = .ok ⟨spliced3 dX dA dB v rv, adv, []⟩ := by
  have hXn := goodDesc_noNl hX
  have hAn := goodDesc_noNl hA
  have hBn := goodDesc_noNl hB
  have hdoc : mkDoc3N dX dA dB = '\n' :: body3 dX dA dB "\n\n".data := rfl
  have hdash : '-' ∉ ('\n' :: (entry "x : int".data dX ++ '\n' ::
      (entry "a : int".data dA ++ '\n' :: (entry "b : int".data dB ++ "\n\n".data))) : Str) :=
    not_mem_rest3 (by decide) (by decide) (by decide) (by decide) (by decide)
      (goodDesc_noDash hX) (goodDesc_noDash hA) (goodDesc_noDash hB) (by decide)
  have hsk1 : skipOK (fun c => decide (c = 'a'))
      ("Parameters".data ++ '\n' :: ("----------".data ++ '\n' :: ("x : int".data
        ++ '\n' :: ("    ".data ++ dX)))) = true := by
    rw [show skipOK (fun c => decide (c = 'a'))
        ("Parameters".data ++ '\n' :: ("----------".data ++ '\n' :: ("x : int".data
          ++ '\n' :: ("    ".data ++ dX))))
        = skipOK (fun c => decide (c = 'a')) dX from rfl]
    exact skipOK_noNl hXn
  have hacc1 : ∀ c r, (fun c => decide (c = 'a')) c = false →
      argEntryAt [] "a".data ('\n' :: c :: r) = none :=
    fun c r hc => argEntryAt_nil_indent_refute (of_decide_eq_false hc)
  have hfind1 : reSearch (argEntryAt (List.replicate (11 - 11) ' ') "a".data)
      (body3 dX dA dB "\n\n".data)
      = some (0 + (("Parameters".data ++ '\n' :: ("----------".data ++ '\n' ::
          ("x : int".data ++ '\n' :: ("    ".data ++ dX))) : Str)).length, 4) := by
    rw [show (List.replicate (11 - 11) ' ' : Str) = [] from rfl]
    rw [show (body3 dX dA dB "\n\n".data : Str)
        = ("Parameters".data ++ '\n' :: ("----------".data ++ '\n' ::
            ("x : int".data ++ '\n' :: ("    ".data ++ dX))))
          ++ ('\n' :: (entry "a : int".data dA ++ '\n' ::
            (entry "b : int".data dB ++ "\n\n".data)))
      from by unfold body3 entry; simp [List.append_assoc]]
    unfold reSearch
    rw [findFrom_skipOK (fun c r hc => argEntryAt_not_nl hc) hacc1 hsk1]
    exact findFrom_some rfl _
  have hd2 : (body3 dX dA dB "\n\n".data).drop
      (0 + (("Parameters".data ++ '\n' :: ("----------".data ++ '\n' ::
        ("x : int".data ++ '\n' :: ("    ".data ++ dX))) : Str)).length + 4)
      = " int".data ++ ('\n' :: ("    ".data ++ (dA ++ ('\n' ::
          (entry "b : int".data dB ++ "\n\n".data))))) := by
    rw [Nat.zero_add]
    rw [← List.drop_drop]
    rw [show (body3 dX dA dB "\n\n".data : Str)
        = ("Parameters".data ++ '\n' :: ("----------".data ++ '\n' ::
            ("x : int".data ++ '\n' :: ("    ".data ++ dX))))
          ++ ('\n' :: (entry "a : int".data dA ++ '\n' ::
            (entry "b : int".data dB ++ "\n\n".data)))
      from by unfold body3 entry; simp [List.append_assoc]]
    rw [List.drop_left]
    rfl
  have hsk2 : skipOK (fun c => !isSpace c) (" int".data ++ ('\n' :: ("    ".data ++ dA)))
      = true := by
    rw [show skipOK (fun c => !isSpace c) (" int".data ++ ('\n' :: ("    ".data ++ dA)))
        = skipOK (fun c => !isSpace c) dA from rfl]
    exact skipOK_noNl hAn
  have hacc2 : ∀ c r, (fun c => !isSpace c) c = false →
      insertPtAt [] ('\n' :: c :: r) = none :=
    fun c r hc => insertPtAt_nil_indent_refute (by simpa using hc)
  have hfind2 : reSearch (insertPtAt (List.replicate (11 - 11) ' '))
      (" int".data ++ ('\n' :: ("    ".data ++ (dA ++ ('\n' ::
        (entry "b : int".data dB ++ "\n\n".data))))))
      = some (0 + ((" int".data ++ ('\n' :: ("    ".data ++ dA)) : Str)).length, 2) := by
    rw [show (List.replicate (11 - 11) ' ' : Str) = [] from rfl]
    rw [show (" int".data ++ ('\n' :: ("    ".data ++ (dA ++ ('\n' ::
          (entry "b : int".data dB ++ "\n\n".data))))) : Str)
        = (" int".data ++ ('\n' :: ("    ".data ++ dA)))
          ++ ('\n' :: (entry "b : int".data dB ++ "\n\n".data))
      from by simp [List.append_assoc]]
    unfold reSearch
    rw [findFrom_skipOK (fun c r hc => insertPtAt_not_nl hc) hacc2 hsk2]
    exact findFrom_some rfl _
  unfold spliceArg
  dsimp only
  rw [hdoc, headerSearch3]
  dsimp only
  rw [show ((('\n' :: body3 dX dA dB "\n\n".data).drop 1).take 21 : Str)
      = "Parameters\n----------".data from rfl]
  rw [show dashesStart "Parameters\n----------".data = some 11 from rfl]
  rw [show paramsNlEnd "Parameters\n----------".data = some 11 from rfl]
  dsimp only
  unfold computeParamsSection
  have hsec : reSearch (litAt ('\n' :: (List.replicate (11 - 11) ' ' ++ "-----".data)))
      (('\n' :: body3 dX dA dB "\n\n".data).drop (1 + 21)) = none := by
    rw [show (('\n' :: body3 dX dA dB "\n\n".data).drop (1 + 21) : Str)
        = '\n' :: (entry "x : int".data dX ++ '\n' :: (entry "a : int".data dA ++ '\n' ::
            (entry "b : int".data dB ++ "\n\n".data))) from rfl]
    exact noSectionEnd hdash _
  rw [hsec]
  dsimp only
  rw [show (('\n' :: body3 dX dA dB "\n\n".data).drop 1 : Str)
      = body3 dX dA dB "\n\n".data from rfl]
  rw [hfind1]
  dsimp only
  rw [hd2, hfind2]
  dsimp only
  rw [show pyFormat [("arg".data, "a".data), ("version".data, v), ("remove_version".data, rv)]
      admonFmtRemove = admonLine v rv from rfl]
  rw [if_neg (show ¬(([] : Str) ≠ []) from fun h => h rfl)]
  rw [show ((splitlinesPy (stripPy (pydedent ([] : Str)))).flatMap
      (fun p => splitlinesPy (fillPy 65536 (List.replicate (11 - 11) ' ')
        (List.replicate (11 - 11) ' ') p)) : List Str) = [] from rfl]
  rw [joinLinesNl_single]
  rw [show (List.replicate (11 - 11) ' ' : Str) = [] from rfl]
  rw [indentPy_nil]
  rw [show (1 + (0 + (("Parameters".data ++ '\n' :: ("----------".data ++ '\n' ::
        ("x : int".data ++ '\n' :: ("    ".data ++ dX))) : Str)).length + 4)
      + (0 + ((" int".data ++ ('\n' :: ("    ".data ++ dA)) : Str)).length) : Nat)
      = (spliceT dX dA).length from by
    have e1 : (("Parameters".data : Str)).length = 10 := rfl
    have e2 : (("----------".data : Str)).length = 10 := rfl
    have e3 : (("x : int".data : Str)).length = 7 := rfl
    have e4 : (("    ".data : Str)).length = 4 := rfl
    have e5 : ((" int".data : Str)).length = 4 := rfl
    have e6 : (("a : int".data : Str)).length = 7 := rfl
    unfold spliceT
    simp only [List.length_append, List.length_cons, e1, e2, e3, e4, e5, e6]
    omega]
  rw [show ('\n' :: body3 dX dA dB "\n\n".data : Str) = spliceT dX dA ++ spliceR dB
    from by unfold spliceT spliceR body3 entry; simp [List.append_assoc]]
  rw [List.take_left, List.drop_left]
  rw [collapse_splice hXn hAn hBn hvn hrvn]

/-- Claim C1 counterexample: the claim promises that `x`'s entry stays
byte-identical whenever the Parameters section lists `x`, `a`, `b` in
order, but when `x`'s description contains a blank-blank gap (a
three-newline run), the global `re.sub("[\n]{3,}", "\n\n")` of sphinx.py
line 231 rewrites it: the original text of `x`'s entry occurs in the
input docstring and no longer occurs in the decorated one. -/
theorem claim_C1_splice_counterexample :
    (("x : int\n    first\n\n\n    second".data : Str)
      <:+: ("\nParameters\n----------\nx : int\n    first\n\n\n    second\na : int\n    [description]\nb : int\n    [description]\n".data : Str))
  ∧ sphinxCall ⟨"deprecated".data, [], [], [], none, 70,
      some [("a".data, ⟨some "nothing".data, some "4.0".data, none⟩)]⟩
      "\nParameters\n----------\nx : int\n    first\n\n\n    second\na : int\n    [description]\nb : int\n    [description]\n".data
      = .ok ⟨"\nParameters\n----------\nx : int\n    first\n\n    second\na : int\n    [description]\n\n    .. admonition:: Deprecated\n      :class: warning\n\n      Parameter a deprecated since 4.0\n\nb : int\n    [description]\n\n".data,
          [], true⟩
  ∧ ¬ (("x : int\n    first\n\n\n    second".data : Str)
      <:+: ("\nParameters\n----------\nx : int\n    first\n\n    second\na : int\n    [description]\n\n    .. admonition:: Deprecated\n      :class: warning\n\n      Parameter a deprecated since 4.0\n\nb : int\n    [description]\n\n".data : Str)) :=
  ⟨by decide, rfl, by decide⟩

/-- Claim C1 (amended): on the ZERO-INDENT three-parameter family — the
docstring is exactly a leading newline, the `Parameters` header and
underline, then the `x`, `a`, `b` entries with single-line dash-free
descriptions and NOTHING after `b`'s entry — and for a sub-record
carrying both a version and a removal version, decorating for `a`
inserts the admonition block immediately after `a`'s description and
strictly before `b`'s entry (at the start of the next line beginning
with the section indent followed by a non-whitespace character), leaving
the text of `x`'s and `b`'s entries byte-identical to the original, as
the exact shape of `spliced3` shows.  The restriction to this family is
essential: the second conjunct shows the same `x`, `a`, `b` entries
followed by a `Returns` section whose body holds additional dashes,
where line 182's global dash count truncates the computed parameters
section before `a`'s entry and NO admonition is inserted at all (the
docstring is only normalised and a missing-description advisory is
emitted). -/
theorem claim_C1_amended_splice_position (dX dA dB v rv : Str) (rsn : Option Str)
    (hX : goodDesc dX) (hA : goodDesc dA) (hB : goodDesc dB)
    (hvn : '\n' ∉ v) (hrvn : '\n' ∉ rv) :
    (sphinxCall ⟨"deprecated".data, [], [], [], none, 70,
        some [("a".data, ⟨rsn, some v, some rv⟩)]⟩ (mkDoc3 dX dA dB)
      = .ok ⟨spliced3 dX dA dB v rv, [], true⟩)
  ∧ sphinxCall ⟨"deprecated".data, [], [], [], none, 70,
        some [("a".data, ⟨some "nothing".data, some "4.0".data, some "5.0".data⟩)]⟩
      "\nParameters\n----------\nx : int\n    [description]\na : int\n    [description]\nb : int\n    [description]\n\nReturns\n-------\n    ------------------------------------------------------------ value\n".data
      = .ok ⟨"\nParameters\n----------\nx : int\n    [description]\na : int\n    [description]\nb : int\n    [description]\n\nReturns\n-------\n    ------------------------------------------------------------ value\n\n".data,
          [⟨.user, .missingDescription "a".data⟩], true⟩ := by
  refine ⟨?_, rfl⟩
  unfold sphinxCall sphinxArgsPath
  dsimp only
  rw [normalizeDoc_mkDoc3 hX hA hB]
  rw [if_neg (mkDoc3N_ne_nl dX dA dB)]
  unfold spliceLoop
  rw [spliceArg_splice_a rsn [] hX hA hB hvn hrvn]
  rfl

/-- Witness for the amended claim C1 at concrete inputs. -/
theorem claim_C1_amended_splice_position_witness :
    (goodDesc "[description]".data ∧ '\n' ∉ ("4.0".data : Str) ∧ '\n' ∉ ("5.0".data : Str))
  ∧ ((sphinxCall ⟨"deprecated".data, [], [], [], none, 70,
        some [("a".data, ⟨some "nothing".data, some "4.0".data, some "5.0".data⟩)]⟩
        (mkDoc3 "[description]".data "[description]".data "[description]".data)
      = .ok ⟨spliced3 "[description]".data "[description]".data "[description]".data
          "4.0".data "5.0".data, [], true⟩)
    ∧ sphinxCall ⟨"deprecated".data, [], [], [], none, 70,
        some [("a".data, ⟨some "nothing".data, some "4.0".data, some "5.0".data⟩)]⟩
      "\nParameters\n----------\nx : int\n    [description]\na : int\n    [description]\nb : int\n    [description]\n\nReturns\n-------\n    ------------------------------------------------------------ value\n".data
      = .ok ⟨"\nParameters\n----------\nx : int\n    [description]\na : int\n    [description]\nb : int\n    [description]\n\nReturns\n-------\n    ------------------------------------------------------------ value\n\n".data,
          [⟨.user, .missingDescription "a".data⟩], true⟩) :=
  ⟨⟨⟨by decide, by decide⟩, by decide, by decide⟩,
    claim_C1_amended_splice_position "[description]".data "[description]".data
      "[description]".data "4.0".data "5.0".data (some "nothing".data)
      ⟨by decide, by decide⟩ ⟨by decide, by decide⟩ ⟨by decide, by decide⟩
      (by decide) (by decide)⟩

/-- Claim C2 counterexample: with the decorator-level `remove_version` set,
the per-argument `self.reason +=` mutation (sphinx.py lines 213-215)
appends the removal warning once more for every processed argument, so the
block of the argument processed second carries two copies of the warning
line: the two processing orders of `a` and `c` produce different spliced
docstrings, refuting "identical content per block regardless of
processing order" and "no cross-contamination". -/
theorem claim_C2_order_counterexample :
    sphinxArgsPath ⟨"deprecated".data, [], [], "9.9".data, none, 70,
        some [("a".data, ⟨none, some "4.0".data, none⟩),
              ("c".data, ⟨none, some "4.1".data, none⟩)]⟩
      [("a".data, ⟨none, some "4.0".data, none⟩),
       ("c".data, ⟨none, some "4.1".data, none⟩)]
      "\nParameters\n----------\nx : int\n    [description]\na : int\n    [description]\nb : int\n    [description]\nc : int\n    [description]\n".data
      = .ok ⟨"\nParameters\n----------\nx : int\n    [description]\na : int\n    [description]\n\n    .. admonition:: Deprecated\n      :class: warning\n\n      Parameter a deprecated since 4.0\nWarning: This deprecated feature will be removed in version 9.9\n\nb : int\n    [description]\nc : int\n    [description]\n\n    .. admonition:: Deprecated\n      :class: warning\n\n      Parameter c deprecated since 4.1\nWarning: This deprecated feature will be removed in version 9.9\nWarning: This deprecated feature will be removed in version 9.9\n\n".data,
          [], true⟩
  ∧ sphinxArgsPath ⟨"deprecated".data, [], [], "9.9".data, none, 70,
        some [("a".data, ⟨none, some "4.0".data, none⟩),
              ("c".data, ⟨none, some "4.1".data, none⟩)]⟩
      [("c".data, ⟨none, some "4.1".data, none⟩),
       ("a".data, ⟨none, some "4.0".data, none⟩)]
      "\nParameters\n----------\nx : int\n    [description]\na : int\n    [description]\nb : int\n    [description]\nc : int\n    [description]\n".data
      = .ok ⟨"\nParameters\n----------\nx : int\n    [description]\na : int\n    [description]\n\n    .. admonition:: Deprecated\n      :class: warning\n\n      Parameter a deprecated since 4.0\nWarning: This deprecated feature will be removed in version 9.9\nWarning: This deprecated feature will be removed in version 9.9\n\nb : int\n    [description]\nc : int\n    [description]\n\n    .. admonition:: Deprecated\n      :class: warning\n\n      Parameter c deprecated since 4.1\nWarning: This deprecated feature will be removed in version 9.9\n\n".data,
          [], true⟩
  ∧ ("\nParameters\n----------\nx : int\n    [description]\na : int\n    [description]\n\n    .. admonition:: Deprecated\n      :class: warning\n\n      Parameter a deprecated since 4.0\nWarning: This deprecated feature will be removed in version 9.9\n\nb : int\n    [description]\nc : int\n    [description]\n\n    .. admonition:: Deprecated\n      :class: warning\n\n      Parameter c deprecated since 4.1\nWarning: This deprecated feature will be removed in version 9.9\nWarning: This deprecated feature will be removed in version 9.9\n\n".data : Str)
      ≠ "\nParameters\n----------\nx : int\n    [description]\na : int\n    [description]\n\n    .. admonition:: Deprecated\n      :class: warning\n\n      Parameter a deprecated since 4.0\nWarning: This deprecated feature will be removed in version 9.9\nWarning: This deprecated feature will be removed in version 9.9\n\nb : int\n    [description]\nc : int\n    [description]\n\n    .. admonition:: Deprecated\n      :class: warning\n\n      Parameter c deprecated since 4.1\nWarning: This deprecated feature will be removed in version 9.9\n\n".data :=
  ⟨rfl, rfl, by decide⟩

/-- Claim C2 (amended): each configured parameter is re-located by a fresh
search over the already-spliced docstring, so there is no offset drift;
with the decorator-level `remove_version` empty, splicing `a` and `c` out
of the four-parameter docstring `x, a, b, c` yields two independent,
non-overlapping, correctly-placed admonition blocks, and both processing
orders produce this same result. -/
theorem claim_C2_two_blocks_order_independent :
    sphinxArgsPath ⟨"deprecated".data, [], [], [], none, 70,
        some [("a".data, ⟨none, some "4.0".data, none⟩),
              ("c".data, ⟨none, some "4.1".data, none⟩)]⟩
      [("a".data, ⟨none, some "4.0".data, none⟩),
       ("c".data, ⟨none, some "4.1".data, none⟩)]
      "\nParameters\n----------\nx : int\n    [description]\na : int\n    [description]\nb : int\n    [description]\nc : int\n    [description]\n".data
      = .ok ⟨"\nParameters\n----------\nx : int\n    [description]\na : int\n    [description]\n\n    .. admonition:: Deprecated\n      :class: warning\n\n      Parameter a deprecated since 4.0\n\nb : int\n    [description]\nc : int\n    [description]\n\n    .. admonition:: Deprecated\n      :class: warning\n\n      Parameter c deprecated since 4.1\n\n".data,
          [], true⟩
  ∧ sphinxArgsPath ⟨"deprecated".data, [], [], [], none, 70,
        some [("a".data, ⟨none, some "4.0".data, none⟩),
              ("c".data, ⟨none, some "4.1".data, none⟩)]⟩
      [("c".data, ⟨none, some "4.1".data, none⟩),
       ("a".data, ⟨none, some "4.0".data, none⟩)]
      "\nParameters\n----------\nx : int\n    [description]\na : int\n    [description]\nb : int\n    [description]\nc : int\n    [description]\n".data
      = .ok ⟨"\nParameters\n----------\nx : int\n    [description]\na : int\n    [description]\n\n    .. admonition:: Deprecated\n      :class: warning\n\n      Parameter a deprecated since 4.0\n\nb : int\n    [description]\nc : int\n    [description]\n\n    .. admonition:: Deprecated\n      :class: warning\n\n      Parameter c deprecated since 4.1\n\n".data,
          [], true⟩ :=
  ⟨rfl, rfl⟩

/-- The parameters-section end as the CLAIM describes it (spec-modelled
comparator, not a code embedding): the section ends at the found
next-section match, shortened only by the trailing dash-line's own
character span — the dashes of the underline right after the matched
newline — instead of every dash to the end of the docstring. -/
def specParamsSection (docstring : Str) (hs he : Nat) (indent : Str) : Str :=
  match reSearch (litAt ('\n' :: (indent ++ "-----".data))) (docstring.drop he) with
  | some hit =>
    let pse : Nat := he + hit.1
    let dcount := countDash ((docstring.drop (pse + 1)).takeWhile (fun c => decide (c ≠ '\n')))
    pySlice docstring hs ((pse : Int) - (dcount : Int))
  | none => docstring.drop hs

/-- Claim C3 counterexample: with two dashed sections after Parameters
(`Returns` with seven dashes, then `Notes` with five), line 182 of
sphinx.py counts every dash from the found position to the end of the
docstring, so the section is shortened by twelve characters instead of
the seven of the next underline: the code's section is cut in the middle
of `a`'s description, the claim's section ends cleanly before `Returns`,
and the downstream splice lands the admonition inside the word
`[description]`. -/
theorem claim_C3_section_end_counterexample :
    reSearch paramsHeaderAt "\nParameters\n----------\nx : int\n    [description]\na : int\n    [description]\n\nReturns\n-------\n    int value\n\nNotes\n-----\n    note text\n\n".data
      = some (1, 21)
  ∧ computeParamsSection "\nParameters\n----------\nx : int\n    [description]\na : int\n    [description]\n\nReturns\n-------\n    int value\n\nNotes\n-----\n    note text\n\n".data
      1 (1 + 21) []
      = "Parameters\n----------\nx : int\n    [description]\na : int\n    [descripti".data
  ∧ specParamsSection "\nParameters\n----------\nx : int\n    [description]\na : int\n    [description]\n\nReturns\n-------\n    int value\n\nNotes\n-----\n    note text\n\n".data
      1 (1 + 21) []
      = "Parameters\n----------\nx : int\n    [description]\na : int\n    [description]\n\n".data
  ∧ ("Parameters\n----------\nx : int\n    [description]\na : int\n    [descripti".data : Str)
      ≠ "Parameters\n----------\nx : int\n    [description]\na : int\n    [description]\n\n".data
  ∧ sphinxCall ⟨"deprecated".data, [], [], [], none, 70,
        some [("a".data, ⟨none, some "4.0".data, none⟩)]⟩
      "\nParameters\n----------\nx : int\n    [description]\na : int\n    [description]\n\nReturns\n-------\n    int value\n\nNotes\n-----\n    note text\n".data
      = .ok ⟨"\nParameters\n----------\nx : int\n    [description]\na : int\n    [descripti\n\n    .. admonition:: Deprecated\n      :class: warning\n\n      Parameter a deprecated since 4.0\n\non]\n\nReturns\n-------\n    int value\n\nNotes\n-----\n    note text\n\n".data,
          [], true⟩ :=
  ⟨rfl, rfl, rfl, by decide, rfl⟩

/-- Claim C3 (amended): the splicer searches forward from the Parameters
underline for the next `\n{indent}-----` line; if found, the section end
is the found position minus the count of EVERY dash from there to the end
of the docstring — which coincides with the claimed "next dash-line's own
span" exactly when that underline carries the only remaining dashes, as
with a single following section — and otherwise the section runs to the
end of the document. -/
theorem claim_C3_amended_section_end :
    reSearch paramsHeaderAt "\nParameters\n----------\nx : int\n    [description]\na : int\n    [description]\n\nReturns\n-------\n    int value\n\n".data
      = some (1, 21)
  ∧ computeParamsSection "\nParameters\n----------\nx : int\n    [description]\na : int\n    [description]\n\nReturns\n-------\n    int value\n\n".data
      1 (1 + 21) []
      = "Parameters\n----------\nx : int\n    [description]\na : int\n    [description]\n\n".data
  ∧ computeParamsSection "\nParameters\n----------\nx : int\n    [description]\na : int\n    [description]\n\nReturns\n-------\n    int value\n\n".data
      1 (1 + 21) []
      = specParamsSection "\nParameters\n----------\nx : int\n    [description]\na : int\n    [description]\n\nReturns\n-------\n    int value\n\n".data
        1 (1 + 21) []
  ∧ computeParamsSection "\nParameters\n----------\nx : int\n    [description]\na : int\n    [description]\n\n".data
      1 (1 + 21) []
      = "Parameters\n----------\nx : int\n    [description]\na : int\n    [description]\n\n".data :=
  ⟨rfl, rfl, rfl, rfl⟩

/-- Claim C9: documentation-structure mismatches are non-fatal.  A
docstring without a Parameters section, or without an entry for the
configured parameter, is left unspliced (apart from the blank-line
normalisation); decoration returns without error, emits a UserWarning
advisory (not a deprecation warning), keeps the classic call-time
wrapping installed, and the call-time deprecation warning for the
configured parameter still fires. -/
theorem claim_C9_nonfatal_doc_mismatch (d dX dA dB : Str)
    (hnl : '\n' ∉ d) (hink : ∃ c ∈ d, isIndentChar c = false)
    (hhead : ∀ c, d.head? = some c → isIndentChar c = false) (hdash : '-' ∉ d)
    (hX : goodDesc dX) (hA : goodDesc dA) (hB : goodDesc dB)
    (hqX : 'q' ∉ dX) (hqA : 'q' ∉ dA) (hqB : 'q' ∉ dB) :
    sphinxCall ⟨"deprecated".data, [], [], [], none, 70,
        some [("q".data, ⟨some "nothing".data, some "4.0".data, none⟩)]⟩ d
      = .ok ⟨d ++ "\n\n".data, [⟨.user, .missingParamsSection⟩], true⟩
  ∧ sphinxCall ⟨"deprecated".data, [], [], [], none, 70,
        some [("q".data, ⟨some "nothing".data, some "4.0".data, none⟩)]⟩ (mkDoc3 dX dA dB)
      = .ok ⟨mkDoc3N dX dA dB, [⟨.user, .missingDescription "q".data⟩], true⟩
  ∧ ((⟨.user, .missingParamsSection⟩ : Advisory).category ≠ WCat.deprecation
      ∧ (⟨.user, .missingDescription "q".data⟩ : Advisory).category ≠ WCat.deprecation)
  ∧ sphinxWrapperFunctionMsgs ⟨"deprecated".data, [], [], [], none, 70,
        some [("q".data, ⟨some "nothing".data, some "4.0".data, none⟩)]⟩
        false none "foo".data ["q".data]
      = [("q".data,
          "Call to deprecated Parameter q. (nothing)\n-- Deprecated since v4.0.".data)]
  ∧ sphinxWrapperFunctionMsgs ⟨"deprecated".data, [], [], [], none, 70,
        some [("q".data, ⟨some "nothing".data, some "4.0".data, none⟩)]⟩
        false none "foo".data [] = [] := by
  refine ⟨?_, ?_, ⟨by decide, by decide⟩, rfl, rfl⟩
  · unfold sphinxCall sphinxArgsPath
    dsimp only
    rw [normalizeDoc_single hnl hink hhead]
    rw [if_neg ?hne]
    case hne =>
      intro h
      have := congrArg List.length h
      simp only [List.length_append] at this
      rw [show ("\n\n".data : Str).length = 2 from rfl,
        show ("\n".data : Str).length = 1 from rfl] at this
      omega
    have hhdr : reSearch paramsHeaderAt (d ++ "\n\n".data) = none := by
      refine noParamsHeader ?_
      intro hm
      rcases List.mem_append.mp hm with h | h
      · exact hdash h
      · exact absurd h (by decide)
    unfold spliceLoop spliceArg
    dsimp only
    rw [hhdr]
    rfl
  · unfold sphinxCall sphinxArgsPath
    dsimp only
    rw [normalizeDoc_mkDoc3 hX hA hB]
    rw [if_neg ?hne2]
    case hne2 =>
      intro h
      have hP : ('P' : Char) ∈ mkDoc3N dX dA dB := by
        rw [show mkDoc3N dX dA dB = '\n' :: body3 dX dA dB "\n\n".data from rfl]
        refine List.mem_cons_of_mem _ ?_
        unfold body3
        exact List.mem_append_left _ (by decide)
      rw [h] at hP
      exact absurd hP (by decide)
    unfold spliceLoop
    rw [spliceArg_missing_q [] [] [] _ hX hA hB hqX hqA hqB]
    rfl

/-- Witness for claim C9 at concrete inputs. -/
theorem claim_C9_nonfatal_doc_mismatch_witness :
    (('\n' ∉ ("Summary.".data : Str)) ∧ ('-' ∉ ("Summary.".data : Str))
      ∧ goodDesc "[description]".data ∧ 'q' ∉ ("[description]".data : Str))
  ∧ (sphinxCall ⟨"deprecated".data, [], [], [], none, 70,
        some [("q".data, ⟨some "nothing".data, some "4.0".data, none⟩)]⟩ "Summary.".data
      = .ok ⟨"Summary.".data ++ "\n\n".data, [⟨.user, .missingParamsSection⟩], true⟩
  ∧ sphinxCall ⟨"deprecated".data, [], [], [], none, 70,
        some [("q".data, ⟨some "nothing".data, some "4.0".data, none⟩)]⟩
        (mkDoc3 "[description]".data "[description]".data "[description]".data)
      = .ok ⟨mkDoc3N "[description]".data "[description]".data "[description]".data,
          [⟨.user, .missingDescription "q".data⟩], true⟩
  ∧ ((⟨.user, .missingParamsSection⟩ : Advisory).category ≠ WCat.deprecation
      ∧ (⟨.user, .missingDescription "q".data⟩ : Advisory).category ≠ WCat.deprecation)
  ∧ sphinxWrapperFunctionMsgs ⟨"deprecated".data, [], [], [], none, 70,
        some [("q".data, ⟨some "nothing".data, some "4.0".data, none⟩)]⟩
        false none "foo".data ["q".data]
      = [("q".data,
          "Call to deprecated Parameter q. (nothing)\n-- Deprecated since v4.0.".data)]
  ∧ sphinxWrapperFunctionMsgs ⟨"deprecated".data, [], [], [], none, 70,
        some [("q".data, ⟨some "nothing".data, some "4.0".data, none⟩)]⟩
        false none "foo".data [] = []) :=
  ⟨⟨by decide, by decide, ⟨by decide, by decide⟩, by decide⟩,
    claim_C9_nonfatal_doc_mismatch "Summary.".data "[description]".data
      "[description]".data "[description]".data (by decide) (by decide) (by decide)
      (by decide) ⟨by decide, by decide⟩ ⟨by decide, by decide⟩ ⟨by decide, by decide⟩
      (by decide) (by decide) (by decide)⟩

/-- Claim C5 counterexample: the `name==""` sentinel of classic.py lines
142-146 collides with a parameter actually named `""` — expressible as
`deprecated_args={'': …}` and suppliable through `**kwargs` on a function
accepting them.  When `""` is the last argument iterated, the final
`name` is the empty string, so `get_deprecated_msg` returns `None` and
the call emits zero warnings even though a configured parameter was
supplied as a keyword, refuting "exactly one entry per configured
parameter supplied". -/
theorem claim_C5_empty_name_counterexample :
    (([] : Str) ∈ [([] : Str)])
  ∧ getDeprecatedMsg ⟨[], [], [], none,
        some [(([] : Str), ⟨some "nothing".data, some "4.0".data, none⟩)]⟩
        false none "foo".data [([] : Str)] = none
  ∧ wrapperFunctionMsgs ⟨[], [], [], none,
        some [(([] : Str), ⟨some "nothing".data, some "4.0".data, none⟩)]⟩
        false none "foo".data [([] : Str)] = [] :=
  ⟨by decide, rfl, rfl⟩

/-- Claim C5 (amended): argument-level message formation, for
configurations whose parameter names are all non-empty (so the
`name==""` sentinel of classic.py lines 142-146 cannot fire).  A call
supplying some configured names as keywords yields the mapping with
exactly one entry per configured parameter supplied, each message built
from that parameter's own sub-record; in particular the concrete
configuration of the spec yields exactly the documented message when `a`
is supplied, and no warning when it is not. -/
theorem claim_C5_arg_messages (dargs : List (Str × ArgSpec)) (kwargs : List Str)
    (r v rv : Str) (act : Option Str) (name : Str) (wic : Bool) (inst : Option Bool)
    (hnempty : ∀ p ∈ dargs, p.1 ≠ ([] : Str))
    (hsup : ∃ p ∈ dargs, p.1 ∈ kwargs) :
    getDeprecatedMsg ⟨r, v, rv, act, some dargs⟩ wic inst name kwargs
      = some ((dargs.filter (fun p => decide (p.1 ∈ kwargs))).map
          (fun p => (p.1, specArgMsg p.1 p.2)))
  ∧ wrapperFunctionMsgs ⟨[], [], [], none,
        some [("a".data, ⟨some "nothing".data, some "4.0".data, none⟩)]⟩
        false none "foo".data ["a".data, "b".data]
      = [("a".data,
          "Call to deprecated Parameter a. (nothing)\n-- Deprecated since v4.0.".data)]
  ∧ wrapperFunctionMsgs ⟨[], [], [], none,
        some [("a".data, ⟨some "nothing".data, some "4.0".data, none⟩)]⟩
        false none "foo".data ["b".data] = [] := by
  refine ⟨?_, rfl, rfl⟩
  have hne : dargs.filter (fun p => decide (p.1 ∈ kwargs)) ≠ [] := by
    obtain ⟨p, hp, hk⟩ := hsup
    intro hEq
    have hmem : p ∈ dargs.filter (fun p => decide (p.1 ∈ kwargs)) := by
      rw [List.mem_filter]
      exact ⟨hp, by simpa using hk⟩
    rw [hEq] at hmem
    simp at hmem
  unfold getDeprecatedMsg
  dsimp only
  cases hL : (dargs.filter (fun p => decide (p.1 ∈ kwargs))).getLast? with
  | none => exact absurd (List.getLast?_eq_none_iff.mp hL) hne
  | some last =>
    dsimp only
    rw [if_neg (hnempty last (List.mem_of_mem_filter (List.mem_of_mem_getLast? hL)))]
    refine congrArg some (List.map_congr_left ?_)
    intro p _
    rw [argMsg_eq_spec]

/-- Witness for the amended claim C5 at a concrete configuration. -/
theorem claim_C5_arg_messages_witness :
    ((∀ p ∈ [(("a".data : Str), (⟨some "nothing".data, some "4.0".data, none⟩ : ArgSpec))],
        p.1 ≠ ([] : Str))
      ∧ ∃ p ∈ [(("a".data : Str), (⟨some "nothing".data, some "4.0".data, none⟩ : ArgSpec))],
        p.1 ∈ [("a".data : Str), "b".data])
  ∧ (getDeprecatedMsg ⟨[], [], [], none,
        some [("a".data, ⟨some "nothing".data, some "4.0".data, none⟩)]⟩
        false none "foo".data ["a".data, "b".data]
      = some (([(("a".data : Str), (⟨some "nothing".data, some "4.0".data, none⟩ : ArgSpec))].filter
            (fun p => decide (p.1 ∈ [("a".data : Str), "b".data]))).map
          (fun p => (p.1, specArgMsg p.1 p.2)))
  ∧ wrapperFunctionMsgs ⟨[], [], [], none,
        some [("a".data, ⟨some "nothing".data, some "4.0".data, none⟩)]⟩
        false none "foo".data ["a".data, "b".data]
      = [("a".data,
          "Call to deprecated Parameter a. (nothing)\n-- Deprecated since v4.0.".data)]
  ∧ wrapperFunctionMsgs ⟨[], [], [], none,
        some [("a".data, ⟨some "nothing".data, some "4.0".data, none⟩)]⟩
        false none "foo".data ["b".data] = []) :=
  ⟨⟨by decide, by decide⟩,
    claim_C5_arg_messages _ _ [] [] [] none "foo".data false none (by decide) (by decide)⟩

/-- Claim C6: the silent no-message path.  The claim holds for routine
calls: with `deprecated_args` configured and none of the configured names
supplied as keywords, `wrapper_function` emits nothing.  It fails for
class construction: `wrapped_cls` iterates `msg.keys()` without the
`if msg:` guard, so the `None` message set raises AttributeError instead
of delegating silently — the code contradicts the keyword-only matching
policy it implements for routines. -/
theorem claim_C6_class_construction_crash :
    wrappedClsMsgs ⟨[], [], [], none,
        some [("a".data, ⟨some "nothing".data, some "4.0".data, none⟩)]⟩
        "Foo".data [] = .error .attributeError
  ∧ wrappedClsMsgs ⟨[], [], [], none,
        some [("a".data, ⟨some "nothing".data, some "4.0".data, none⟩)]⟩
        "Foo".data ["b".data] = .error .attributeError
  ∧ wrapperFunctionMsgs ⟨[], [], [], none,
        some [("a".data, ⟨some "nothing".data, some "4.0".data, none⟩)]⟩
        false none "foo".data [] = []
  ∧ wrapperFunctionMsgs ⟨[], [], [], none,
        some [("a".data, ⟨some "nothing".data, some "4.0".data, none⟩)]⟩
        false none "foo".data ["b".data] = [] :=
  ⟨rfl, rfl, rfl, rfl⟩

/-- Counterexample to claim C7: constructing the sphinx adapter without a
version string raises nothing — `SphinxAdapter.__init__` performs no
validation, and decorating an entity with the version empty succeeds,
emitting the directive with no version number instead of erroring. -/
theorem claim_C7_counterexample :
    sphinxCall ⟨"deprecated".data, [], [], [], none, 70, none⟩ "Summary.".data
      = .ok ⟨"Summary.\n\n.. deprecated::\n".data, [], true⟩ := rfl

/-- Claim C7 as amended: constructing the documentation-emitting adapter
without a version string does not raise; decoration succeeds and the
appended directive header simply omits the version. -/
theorem claim_C7_amended_no_version_check (directive d : Str) (ll : Nat)
    (act : Option Str)
    (hnl : '\n' ∉ d)
    (hink : ∃ c ∈ d, isIndentChar c = false)
    (hhead : ∀ c, d.head? = some c → isIndentChar c = false) :
    sphinxCall ⟨directive, [], [], [], act, ll, none⟩ d
      = .ok ⟨d ++ "\n\n".data ++ ".. ".data ++ directive ++ "::\n".data, [],
          notVaVc directive⟩ := by
  have hdne : d ≠ [] := by
    obtain ⟨c, hc, _⟩ := hink
    intro he
    rw [he] at hc
    simp at hc
  have hded : pydedent d = d := by
    refine pydedent_id ?_ ?_
    · rw [splitNl_noNl hnl]
      intro l hl
      rw [List.mem_singleton] at hl
      rw [hl]
      exact wsOnlyLine_false_of_ink hink
    · rw [splitNl_noNl hnl]
      exact ⟨d, by simp, hdne, lineIndent_nil_of_head hhead⟩
  have hdrop : dropTrailingNl d = d := dropTrailingNl_noNl hnl
  unfold sphinxCall
  dsimp only
  unfold entityPath normalizeDoc
  dsimp only
  rw [hded, if_pos hdne, hdrop]
  have hline : pyFormat [("directive".data, directive), ("version".data, [])]
      ".. {directive}::".data = ".. ".data ++ (directive ++ "::".data) := rfl
  simp only [ne_eq, not_true_eq_false, ite_false, List.append_nil, ite_true,
    not_false_eq_true, reduceIte]
  rw [hline]
  simp only [joinLinesNl, List.map_cons, List.map_nil, List.flatten]
  simp [List.append_assoc]

/-- Witness for the amended claim C7 at a concrete input. -/
theorem claim_C7_amended_no_version_check_witness :
    ('\n' ∉ ("Summary.".data : Str))
  ∧ (∃ c ∈ ("Summary.".data : Str), isIndentChar c = false)
  ∧ (sphinxCall ⟨"deprecated".data, [], [], [], none, 70, none⟩ "Summary.".data
      = .ok ⟨"Summary.".data ++ "\n\n".data ++ ".. ".data ++ "deprecated".data
          ++ "::\n".data, [], notVaVc "deprecated".data⟩) :=
  ⟨by decide, by decide,
    claim_C7_amended_no_version_check "deprecated".data "Summary.".data 70 none
      (by decide) (by decide) (by decide)⟩

/-- Claim C8: the `directive` option of the documentation-emitting
factory is broken.  `deprecat.sphinx.deprecat` names `directive` as a
parameter, so the caller's value never reaches `**kwargs` and line 379
rebinds it to the default: decorating with `directive='versionadded'`
still emits a `.. deprecated::` block (and still installs the call-time
wrapper). -/
theorem claim_C8_directive_ignored :
    sphinxCall (sphinxDeprecatAdapter [] "versionadded".data "1.2.0".data [] 70 none)
        "Summary.".data
      = .ok ⟨"Summary.\n\n.. deprecated:: 1.2.0\n".data, [], true⟩
  ∧ sphinxCall (sphinxDeprecatAdapter [] "versionchanged".data "1.2.0".data [] 70 none)
        "Summary.".data
      = .ok ⟨"Summary.\n\n.. deprecated:: 1.2.0\n".data, [], true⟩
  ∧ (sphinxDeprecatAdapter [] "versionadded".data "1.2.0".data [] 70 none).directive
      = "deprecated".data :=
  ⟨rfl, rfl, rfl⟩

/-- Claim C10: the `versionadded` / `versionchanged` factories rewrite the
docstring only: `SphinxAdapter.__call__` returns the entity before
reaching the classic wrapping, so no call-time hook is installed and
calling or instantiating the decorated entity emits no warning. -/
theorem claim_C10_versionadded_no_wrapper (reason version : Str) (ll : Nat) (doc : Str)
    (isClass : Bool) (name : Str) (kwargs : List Str) (d2 : Str) (adv : List Advisory) :
    sphinxCall (versionaddedAdapter reason version ll) doc
      = .ok ⟨entityPath (versionaddedAdapter reason version ll) doc, [], false⟩
  ∧ sphinxCall (versionchangedAdapter reason version ll) doc
      = .ok ⟨entityPath (versionchangedAdapter reason version ll) doc, [], false⟩
  ∧ adapterDirectCallMsgs (versionaddedAdapter reason version ll) isClass
      ⟨d2, adv, false⟩ name kwargs = .ok []
  ∧ adapterDirectCallMsgs (versionchangedAdapter reason version ll) isClass
      ⟨d2, adv, false⟩ name kwargs = .ok [] := by
  refine ⟨rfl, rfl, ?_, ?_⟩
  all_goals simp [adapterDirectCallMsgs]

end Deprecat
